import Mathlib

/-!
bluecherry-client: live feed widget, live stream state, event video player, camera grid
and server repository.

A shallow embedding of `src/ui/LiveFeedWidget.cpp`, `src/core/LiveStream.h`,
`src/ui/EventVideoPlayer.cpp`, `src/ui/CameraAreaWidget.cpp` and
`src/server/DVRServerRepository.cpp`, followed by the properties proved about them.

Conventions.
* C++ `int` / `qint64` values are `Int`; a conversion to a 32-bit `int` is the explicit
  wrap `toInt32`, and C++ integer division is `Int.tdiv` (rounding toward zero).
* An object is a record of its fields; a member function takes the record and returns the
  new record. What a member function reads from other objects (the stream a camera hands
  out, the observable state of a stream object) is passed in as an `Env`.
* Calls made on other objects (connect, disconnect, start, ...) are appended to the ghost
  field `calls`, so that "no stream was started" can be stated.
* `update()` / `updateGeometry()` only schedule a repaint or relayout and `emit` only
  notifies listeners; they touch none of the modelled fields and are left out.
* `tr(...)` is the source text itself (no translator installed).
* A loop whose number of iterations depends on the data takes a `fuel` argument and yields
  `none` when it runs out; a failed `Q_ASSERT` or an index out of range yields `none` too.
  The theorems show that enough fuel gives a result.
* Widgets held through pointers in a list are represented by their states, in list order.
-/

namespace Bluecherry

/-! ## Qt value types used by the widget -/

/-- Conversion of a wide integer to a 32-bit `int`: two's complement wrap-around. -/
def toInt32 (x : Int) : Int :=
  (x + 2147483648) % 4294967296 - 2147483648

/-- The value of a `qint64` expression computed without bound: two's complement
wrap-around to 64 bits. -/
def toInt64 (x : Int) : Int :=
  (x + 9223372036854775808) % 18446744073709551616 - 9223372036854775808

/-- Qt `QSize`: a width `wd` and a height `ht`. -/
structure QSize where
  wd : Int
  ht : Int
deriving DecidableEq, Repr

/-- Qt `Qt::AspectRatioMode`. -/
inductive AspectRatioMode where
  | IgnoreAspectRatio
  | KeepAspectRatio
  | KeepAspectRatioByExpanding
deriving DecidableEq, Repr

namespace QSize

/-- Qt `QSize::isEmpty`: either dimension is less than one. -/
def isEmpty (s : QSize) : Bool :=
  decide (s.wd < 1) || decide (s.ht < 1)

/-- Qt `operator+` on sizes. -/
def add (a b : QSize) : QSize :=
  { wd := a.wd + b.wd, ht := a.ht + b.ht }

/-- Qt `QSize::scale(const QSize &s, Qt::AspectRatioMode mode)` (Qt 4): the receiver scaled
to the rectangle `s`. The intermediate products are 64-bit (`qint64`), the results are
stored back into 32-bit `int` fields. -/
def scale (self s : QSize) (mode : AspectRatioMode) : QSize :=
  if mode = AspectRatioMode.IgnoreAspectRatio ∨ self.wd = 0 ∨ self.ht = 0 then
    { wd := s.wd, ht := s.ht }
  else
    let rw : Int := Int.tdiv (s.ht * self.wd) self.ht
    let useHeight : Bool :=
      if mode = AspectRatioMode.KeepAspectRatio then decide (rw ≤ s.wd) else decide (rw ≥ s.wd)
    if useHeight then
      { wd := toInt32 rw, ht := s.ht }
    else
      { wd := s.wd, ht := toInt32 (Int.tdiv (s.wd * self.ht) self.wd) }

end QSize

/-- Qt `QRect`: stored as the corner coordinates `x1, y1, x2, y2` (both inclusive). -/
structure QRect where
  x1 : Int
  y1 : Int
  x2 : Int
  y2 : Int
deriving DecidableEq, Repr

namespace QRect

/-- Qt `QRect(int left, int top, int width, int height)`. -/
def ofSize (left top width height : Int) : QRect :=
  { x1 := left, y1 := top, x2 := left + width - 1, y2 := top + height - 1 }

/-- Qt `QRect::adjusted(dx1, dy1, dx2, dy2)`. -/
def adjusted (r : QRect) (dx1 dy1 dx2 dy2 : Int) : QRect :=
  { x1 := r.x1 + dx1, y1 := r.y1 + dy1, x2 := r.x2 + dx2, y2 := r.y2 + dy2 }

/-- Qt `QRect::size()`: `QSize(width(), height())` with `width() = x2 - x1 + 1`. -/
def size (r : QRect) : QSize :=
  { wd := r.x2 - r.x1 + 1, ht := r.y2 - r.y1 + 1 }

end QRect

/-- Qt `QImage`: its size and its pixel contents (an identifying number). -/
structure QImage where
  size : QSize
  bits : Nat
deriving DecidableEq, Repr

/-- Qt `QPixmap`: its size and its pixel contents (an identifying number). -/
structure QPixmap where
  size : QSize
  bits : Nat
deriving DecidableEq, Repr

namespace QPixmap

/-- Qt `QPixmap()`: the null pixmap. -/
def null : QPixmap :=
  { size := { wd := 0, ht := 0 }, bits := 0 }

/-- Qt `QPixmap::isNull`: a pixmap without any pixel is null. -/
def isNull (p : QPixmap) : Bool :=
  p.size.isEmpty

/-- Qt `QPixmap::fromImage`: the same picture as a pixmap. -/
def fromImage (img : QImage) : QPixmap :=
  { size := img.size, bits := img.bits }

end QPixmap

/-! ## `LiveStream::State` (src/core/LiveStream.h) -/

/-- The enumeration `LiveStream::State`. -/
inductive State where
  | Error
  | StreamOffline
  | NotConnected
  | Connecting
  | Streaming
  | Paused
deriving DecidableEq, Repr

namespace State

/-- The integer value of each enumerator: `Error = -3`, `StreamOffline = -2`, and each later
enumerator one more than the one before it. -/
def toInt : State → Int
  | Error => -3
  | StreamOffline => -2
  | NotConnected => -2 + 1
  | Connecting => -2 + 1 + 1
  | Streaming => -2 + 1 + 1 + 1
  | Paused => -2 + 1 + 1 + 1 + 1

/-- All enumerators, in declaration order. -/
def all : List State :=
  [Error, StreamOffline, NotConnected, Connecting, Streaming, Paused]

end State

/-- The fields of a `LiveStream` read by `state()`, `errorMessage()`, `currentFrame()` and
`isPaused()`. -/
structure LiveStream where
  m_currentFrame : QImage
  m_errorMessage : String
  m_state : State
  m_autoStart : Bool
deriving DecidableEq, Repr

namespace LiveStream

/-- Transcription of `State state() const { return m_state; }`. -/
def state (s : LiveStream) : State :=
  s.m_state

/-- Transcription of `bool isPaused() { return state() == Paused; }`: enumerators are
compared by their integer values. -/
def isPaused (s : LiveStream) : Bool :=
  decide (s.state.toInt = State.Paused.toInt)

end LiveStream

/-! ## `LiveFeedWidget` (src/ui/LiveFeedWidget.cpp) -/

/-- A `DVRCamera` handle: `d` is the shared camera data it points to, `none` for the invalid
camera. `operator==` compares the pointers, `operator bool` tests for a pointer. -/
structure DVRCamera where
  d : Option Nat
deriving DecidableEq, Repr

namespace DVRCamera

/-- The C++ `operator bool` of a camera handle. -/
def isValid (c : DVRCamera) : Bool :=
  c.d.isSome

end DVRCamera

/-- What the widget can observe of an `MJpegStream` object through `currentFrame()`,
`state()`, `streamSize()` and `errorMessage()`. -/
structure MJpegStream where
  currentFrame : QPixmap
  state : Int
  streamSize : QSize
  errorMessage : String
deriving DecidableEq, Repr

/-- The surroundings of a widget during one call: `mjpegStream c` is the shared pointer
returned by `c.mjpegStream()` (`none` for the null pointer, otherwise the address of the
stream object) and `stream p` is the stream object at address `p`. -/
structure Env where
  mjpegStream : DVRCamera → Option Nat
  stream : Nat → MJpegStream

/-- A call made by the widget on another object. -/
inductive Call where
  | cameraDisconnect (c : DVRCamera)
  | cameraConnect (c : DVRCamera)
  | streamDisconnect (p : Nat)
  | streamUpdateScaleSizes (p : Nat)
  | streamConnect (p : Nat)
  | streamStart (p : Nat)
deriving DecidableEq, Repr

/-- The part of the `QWidget` base object the widget code reads or writes: the extent of
`rect()`, the tool tip, `isWindow()`, `isFullScreen()`, the attributes `WA_Resized` and
`WA_WState_Polished`, and `QFontMetrics(font()).height()`. -/
structure QWidget where
  width : Int
  height : Int
  toolTip : String
  isWindow : Bool
  isFullScreen : Bool
  waResized : Bool
  polished : Bool
  fontHeight : Int
deriving DecidableEq, Repr

/-- The members of `LiveFeedWidget` on top of its `QWidget` base, and the ghost list
`calls` of the calls it has made on cameras and streams (latest last). -/
structure LiveFeedWidget extends QWidget where
  m_camera : DVRCamera
  m_stream : Option Nat
  m_currentFrame : QPixmap
  m_statusMsg : String
  m_titleHeight : Int
  m_isPaused : Bool
  calls : List Call
deriving DecidableEq, Repr

/-- Modelled from the spec: the header `core/MJpegStream.h`, which declares the
`MJpegStream::State` enumerators used by the widget, is not among the sources. The spec
gives the stream session (the LiveStream / MJpegStream role) the states Error, Offline,
NotConnected, Connecting, Streaming and Paused; the enumerators carry the values of the
enumerators of the same names in `LiveStream::State`. -/
def MJpegStream.stateValue (s : State) : Int :=
  s.toInt

namespace LiveFeedWidget

/-- Qt `QWidget::rect()`: `QRect(0, 0, width, height)`. -/
def rect (w : LiveFeedWidget) : QRect :=
  QRect.ofSize 0 0 w.width w.height

/-- Qt `QWidget::resize(const QSize &)`: the widget takes the given size and `WA_Resized`
is set. -/
def resize (w : LiveFeedWidget) (s : QSize) : LiveFeedWidget :=
  { w with width := s.wd, height := s.ht, waResized := true }

/-- Qt `QWidget::setToolTip`. -/
def setToolTip (w : LiveFeedWidget) (s : String) : LiveFeedWidget :=
  { w with toolTip := s }

/-- Appends a call to the ghost list. -/
def call (w : LiveFeedWidget) (c : Call) : LiveFeedWidget :=
  { w with calls := w.calls ++ [c] }

/-- Transcription of `LiveFeedWidget::setStatusMessage`. -/
def setStatusMessage (w : LiveFeedWidget) (message : String) : LiveFeedWidget :=
  { w with m_statusMsg := message }

/-- Modelled from the spec: `clearStatusMessage()` is an inline member declared in
`LiveFeedWidget.h`, which is not among the sources. A widget renders a placeholder in place
of video or the frame itself; clearing the status message sets the empty message, the one
for which `paintEvent` draws no placeholder (`if (!m_statusMsg.isEmpty())`). -/
def clearStatusMessage (w : LiveFeedWidget) : LiveFeedWidget :=
  w.setStatusMessage ""

/-- Modelled from the spec: `isPaused()` is an inline member declared in
`LiveFeedWidget.h`, which is not among the sources; it reads the flag `m_isPaused`. -/
def isPaused (w : LiveFeedWidget) : Bool :=
  w.m_isPaused

/-- The events handled by `LiveFeedWidget::event`. -/
inductive Event where
  | FontChange
  | Polish
  | Other
deriving DecidableEq, Repr

/-- Transcription of `LiveFeedWidget::event`: a font change or a polish recomputes the
title height as `qMax(15, fm.height() + 4)`. -/
def event (w : LiveFeedWidget) (e : Event) : LiveFeedWidget :=
  if e = Event.FontChange ∨ e = Event.Polish then
    { w with m_titleHeight := max 15 (w.fontHeight + 4) }
  else
    w

/-- Qt `QWidget::ensurePolished()`: a widget that was not polished yet is marked polished
and receives a `Polish` event. -/
def ensurePolished (w : LiveFeedWidget) : LiveFeedWidget :=
  if w.polished then w else ({ w with polished := true } : LiveFeedWidget).event Event.Polish

/-- Transcription of `LiveFeedWidget::imageArea` (the rectangle it returns):
`ensurePolished(); return rect().adjusted(0, m_titleHeight, 0, 0);`. -/
def imageArea (w : LiveFeedWidget) : QRect :=
  let w1 := w.ensurePolished
  w1.rect.adjusted 0 w1.m_titleHeight 0 0

/-- Transcription of the constructor: `m_stream(0), m_titleHeight(-1), m_isPaused(false)`,
default-constructed camera and frame, then `setStatusMessage(tr("No\nCamera"))`. -/
def construct (base : QWidget) : LiveFeedWidget :=
  setStatusMessage
    { toQWidget := base
      m_camera := { d := none }
      m_stream := none
      m_currentFrame := QPixmap.null
      m_statusMsg := ""
      m_titleHeight := -1
      m_isPaused := false
      calls := [] }
    "No\nCamera"

/-- Transcription of `LiveFeedWidget::streamSizeChanged`. -/
def streamSizeChanged (w : LiveFeedWidget) (size : QSize) : LiveFeedWidget :=
  if !size.isEmpty && w.isWindow && !w.isFullScreen && !w.waResized then
    w.resize (size.add { wd := 0, ht := w.m_titleHeight })
  else
    w

/-- Transcription of `LiveFeedWidget::setStream`. -/
def setStream (env : Env) (w : LiveFeedWidget) (stream : Option Nat) : LiveFeedWidget :=
  if w.isPaused && stream.isSome then
    w
  else
    let w1 := match w.m_stream with
      | some p => w.call (Call.streamDisconnect p)
      | none => w
    let w2 := w1.clearStatusMessage
    let w3 : LiveFeedWidget := { w2 with m_stream := stream }
    match w3.m_stream with
    | some p =>
      let streamFrame := (env.stream p).currentFrame
      let w4 : LiveFeedWidget :=
        if !streamFrame.isNull || w3.m_currentFrame.isNull then
          { w3 with m_currentFrame := streamFrame }
        else
          w3
      let w5 := (w4.call (Call.streamConnect p)).call (Call.streamStart p)
      if !(env.stream p).streamSize.isEmpty then
        w5.streamSizeChanged (env.stream p).streamSize
      else
        w5
    | none =>
      if !w3.isPaused then w3.setStatusMessage "No\nVideo" else w3

/-- Transcription of `LiveFeedWidget::setCamera`. -/
def setCamera (env : Env) (w : LiveFeedWidget) (camera : DVRCamera) : LiveFeedWidget :=
  if camera = w.m_camera then
    w
  else
    let w1 := if w.m_camera.isValid then w.call (Call.cameraDisconnect w.m_camera) else w
    let w2 : LiveFeedWidget := match w1.m_stream with
      | some p =>
        { (w1.call (Call.streamDisconnect p)).call (Call.streamUpdateScaleSizes p) with
          m_stream := none }
      | none => w1
    let w3 : LiveFeedWidget :=
      { w2 with m_camera := camera, m_currentFrame := QPixmap.null, m_statusMsg := "",
                m_isPaused := false }
    if !w3.m_camera.isValid then
      w3.setStatusMessage "No\nCamera"
    else
      setStream env (w3.call (Call.cameraConnect w3.m_camera)) (env.mjpegStream w3.m_camera)

/-- Transcription of `LiveFeedWidget::cameraDataUpdated`. -/
def cameraDataUpdated (env : Env) (w : LiveFeedWidget) : LiveFeedWidget :=
  let nstream := env.mjpegStream w.m_camera
  if w.m_stream ≠ nstream then setStream env w nstream else w

/-- Transcription of `LiveFeedWidget::setPaused` (the `#if 0` block is not compiled). -/
def setPaused (env : Env) (w : LiveFeedWidget) (paused : Bool) : LiveFeedWidget :=
  if !w.m_camera.isValid then
    w
  else if paused && !w.m_isPaused then
    setStream env { w with m_isPaused := true } none
  else
    setStream env { w with m_isPaused := false } (env.mjpegStream w.m_camera)

/-- Transcription of `LiveFeedWidget::addScaleSize`: the widget (possibly polished by
`imageArea()`) and the vector with the size of the image area appended. -/
def addScaleSize (w : LiveFeedWidget) (sizes : List QSize) : LiveFeedWidget × List QSize :=
  (w.ensurePolished, sizes ++ [w.imageArea.size])

/-- The size `updateFrame` looks for: `frame.size()` scaled into the size of the image
area, keeping the aspect ratio. -/
def desiredSize (w : LiveFeedWidget) (frame : QPixmap) : QSize :=
  frame.size.scale w.imageArea.size AspectRatioMode.KeepAspectRatio

/-- The loop of `updateFrame` over `scaledFrames`: `cur` is `m_currentFrame`; the first
image whose size equals `desired` replaces it and ends the loop. -/
def scanScaledFrames (desired : QSize) (cur : QPixmap) : List QImage → QPixmap
  | [] => cur
  | it :: rest =>
    if it.size = desired then QPixmap.fromImage it else scanScaledFrames desired cur rest

/-- Transcription of `LiveFeedWidget::updateFrame`. -/
def updateFrame (env : Env) (w : LiveFeedWidget) (frame : QPixmap)
    (scaledFrames : List QImage) : LiveFeedWidget :=
  if w.m_isPaused then
    w
  else
    let desired := w.desiredSize frame
    let w1 := w.ensurePolished
    let w2 : LiveFeedWidget := { w1 with m_currentFrame := frame }
    let w3 : LiveFeedWidget :=
      { w2 with m_currentFrame := scanScaledFrames desired w2.m_currentFrame scaledFrames }
    match w3.m_stream with
    | some p =>
      if (env.stream p).state = MJpegStream.stateValue State.Streaming then
        { w3 with m_statusMsg := "" }
      else
        w3
    | none => w3

/-- Transcription of `LiveFeedWidget::mjpegStateChanged`. The result is `none` when
`Q_ASSERT(m_stream)` fails. -/
def mjpegStateChanged (env : Env) (w : LiveFeedWidget) (state : Int) :
    Option LiveFeedWidget :=
  if w.m_isPaused then
    some w
  else
    match w.m_stream with
    | none => none
    | some p =>
      let w1 := w.setToolTip ""
      if state = MJpegStream.stateValue State.Error then
        some ((w1.setStatusMessage "Stream Error").setToolTip (env.stream p).errorMessage)
      else if state = MJpegStream.stateValue State.StreamOffline then
        some (w1.setStatusMessage "Server\nOffline")
      else if state = MJpegStream.stateValue State.NotConnected then
        some (w1.setStatusMessage "Disconnected")
      else if state = MJpegStream.stateValue State.Connecting then
        some (w1.setStatusMessage "Connecting...")
      else if state = MJpegStream.stateValue State.Streaming then
        some (w1.setStatusMessage "Buffering...")
      else
        some w1.clearStatusMessage

end LiveFeedWidget

/-! ## `EventVideoPlayer` (src/ui/EventVideoPlayer.cpp) -/

/-- Qt `QAbstractSlider` range and value, as held by the seek slider. -/
structure QSlider where
  minimum : Int
  maximum : Int
  value : Int
  enabled : Bool
deriving DecidableEq, Repr

namespace QSlider

/-- Qt `QAbstractSlider::setValue`: the value is bounded to the range,
`qMax(minimum, qMin(maximum, value))`. -/
def setValue (s : QSlider) (value : Int) : QSlider :=
  { s with value := max s.minimum (min s.maximum value) }

/-- Qt `QAbstractSlider::setRange`: `minimum = min; maximum = qMax(min, max)`, and the value
is bounded again when the range changed. -/
def setRange (s : QSlider) (min max : Int) : QSlider :=
  let s1 : QSlider := { s with minimum := min, maximum := Max.max min max }
  if s.minimum ≠ s1.minimum ∨ s.maximum ≠ s1.maximum then s1.setValue s1.value else s1

/-- Qt `QAbstractSlider::setMaximum`: `setRange(qMin(minimum, max), max)`. -/
def setMaximum (s : QSlider) (max : Int) : QSlider :=
  s.setRange (min s.minimum max) max

end QSlider

/-- What the player reads from its `VideoPlayerBackend` during one call: `duration()` and
`position()`, both `qint64` nanoseconds. -/
structure Backend where
  duration : Int
  position : Int
deriving DecidableEq, Repr

/-- The numbers substituted for `%1:%2 / %3:%4` in the position label. -/
structure PosText where
  minutes : Int
  seconds : Int
  durationMinutes : Int
  durationSeconds : Int
deriving DecidableEq, Repr

/-- The members of `EventVideoPlayer` written by its slots, and the ghost list `seeks` of
the positions passed to `backend.seek` (latest last). -/
structure EventVideoPlayer where
  m_seekSlider : QSlider
  m_posText : Option PosText
  seeks : List Int
deriving DecidableEq, Repr

namespace EventVideoPlayer

/-- Transcription of `EventVideoPlayer::seek`: `backend.seek(qint64(position) * 1000000)`.
The `int` argument is widened to `qint64` and the product is a `qint64`, hence taken
modulo 2^64. -/
def seek (p : EventVideoPlayer) (position : Int) : EventVideoPlayer :=
  { p with seeks := p.seeks ++ [toInt64 (toInt32 position * 1000000)] }

/-- The part of `updatePosition` after the duration refresh: the slider value and the
position label are set from `backend.position()` and `backend.duration()`. The slider
signals are blocked meanwhile, so `seek` is not triggered. -/
def showPosition (b : Backend) (p : EventVideoPlayer) : EventVideoPlayer :=
  let nsPosition := b.position
  let position := toInt32 (Int.tdiv nsPosition 1000000)
  let p1 : EventVideoPlayer := { p with m_seekSlider := p.m_seekSlider.setValue position }
  let secs := toInt32 (Int.tdiv nsPosition 1000000000)
  let durationSecs := toInt32 (Int.tdiv b.duration 1000000000)
  let text : PosText :=
    { minutes := Int.tdiv secs 60, seconds := Int.tmod secs 60,
      durationMinutes := Int.tdiv durationSecs 60,
      durationSeconds := Int.tmod durationSecs 60 }
  { p1 with m_posText := some text }

mutual

/-- Transcription of `EventVideoPlayer::durationChanged`. It and `updatePosition` call each
other; `fuel` bounds the depth of these calls and the result is `none` when it runs out. -/
def durationChanged (b : Backend) : Nat → EventVideoPlayer → Int → Option EventVideoPlayer
  | 0, _, _ => none
  | fuel + 1, p, nsDuration =>
    let nsDuration1 := if nsDuration = -1 then b.duration else nsDuration
    let duration := toInt32 (Int.tdiv nsDuration1 1000000)
    let p1 : EventVideoPlayer := { p with m_seekSlider := p.m_seekSlider.setMaximum duration }
    updatePosition b fuel p1

/-- Transcription of `EventVideoPlayer::updatePosition`. -/
def updatePosition (b : Backend) : Nat → EventVideoPlayer → Option EventVideoPlayer
  | 0, _ => none
  | fuel + 1, p =>
    if p.m_seekSlider.maximum = 0 ∧ b.duration ≠ 0
        ∧ toInt32 (Int.tdiv b.duration 1000000) ≠ 0 then
      durationChanged b fuel p b.duration
    else
      some (showPosition b p)

end

end EventVideoPlayer

/-! ## Relations and sample inputs used in the statements -/

/-- The list `l2` is the list `l` with some images removed, every removed image having a
size other than `desired`. -/
inductive RemovedOtherSizes (desired : QSize) : List QImage → List QImage → Prop where
  | nil : RemovedOtherSizes desired [] []
  | keep (it : QImage) {l2 l : List QImage} :
      RemovedOtherSizes desired l2 l → RemovedOtherSizes desired (it :: l2) (it :: l)
  | drop (it : QImage) {l2 l : List QImage} :
      it.size ≠ desired → RemovedOtherSizes desired l2 l → RemovedOtherSizes desired l2 (it :: l)

/-- The status message a widget shows after `mjpegStateChanged` was called with the value
of the enumerator `s` (`none` when the call fails its assertion). -/
def statusAfter (env : Env) (w : LiveFeedWidget) (s : State) : Option String :=
  (LiveFeedWidget.mjpegStateChanged env w (MJpegStream.stateValue s)).map
    (fun w2 => w2.m_statusMsg)

/-- The states a `LiveFeedWidget` can be in: the constructed widget, and every state
obtained from one of these by a member function or slot of the widget. -/
inductive Reachable : LiveFeedWidget → Prop where
  | construct (base : QWidget) : Reachable (LiveFeedWidget.construct base)
  | setCamera (env : Env) (c : DVRCamera) {w : LiveFeedWidget} :
      Reachable w → Reachable (LiveFeedWidget.setCamera env w c)
  | setStream (env : Env) (stream : Option Nat) {w : LiveFeedWidget} :
      Reachable w → Reachable (LiveFeedWidget.setStream env w stream)
  | cameraDataUpdated (env : Env) {w : LiveFeedWidget} :
      Reachable w → Reachable (LiveFeedWidget.cameraDataUpdated env w)
  | setPaused (env : Env) (paused : Bool) {w : LiveFeedWidget} :
      Reachable w → Reachable (LiveFeedWidget.setPaused env w paused)
  | updateFrame (env : Env) (frame : QPixmap) (l : List QImage) {w : LiveFeedWidget} :
      Reachable w → Reachable (LiveFeedWidget.updateFrame env w frame l)
  | mjpegStateChanged (env : Env) (state : Int) {w w2 : LiveFeedWidget} :
      Reachable w → LiveFeedWidget.mjpegStateChanged env w state = some w2 → Reachable w2
  | addScaleSize (sizes : List QSize) {w : LiveFeedWidget} :
      Reachable w → Reachable (LiveFeedWidget.addScaleSize w sizes).1
  | streamSizeChanged (size : QSize) {w : LiveFeedWidget} :
      Reachable w → Reachable (LiveFeedWidget.streamSizeChanged w size)
  | event (e : LiveFeedWidget.Event) {w : LiveFeedWidget} :
      Reachable w → Reachable (LiveFeedWidget.event w e)

namespace Sample

/-- A world with one camera (data pointer 1) whose stream lives at address 7 and is
streaming 640x480 frames. -/
def env : Env :=
  { mjpegStream := fun c => if c.d = some 1 then some 7 else none
    stream := fun _ =>
      { currentFrame := { size := { wd := 640, ht := 480 }, bits := 10 }
        state := 1
        streamSize := { wd := 640, ht := 480 }
        errorMessage := "" } }

/-- An embedded 100x115 widget with a font 11 pixels high, hence a title 15 pixels high and
an image area of 100x100. -/
def base : QWidget :=
  { width := 100, height := 115, toolTip := "", isWindow := false, isFullScreen := false,
    waResized := false, polished := false, fontHeight := 11 }

/-- The only camera of the sample world. -/
def camera : DVRCamera :=
  { d := some 1 }

/-- A freshly constructed widget: no camera, not paused. -/
def fresh : LiveFeedWidget :=
  LiveFeedWidget.construct base

/-- The widget showing the camera: not paused, attached to the stream at address 7. -/
def live : LiveFeedWidget :=
  LiveFeedWidget.setCamera env fresh camera

/-- The widget showing the camera, paused. -/
def paused : LiveFeedWidget :=
  LiveFeedWidget.setPaused env live true

/-- A full-resolution 640x480 frame. -/
def frame : QPixmap :=
  { size := { wd := 640, ht := 480 }, bits := 20 }

/-- Another full-resolution 640x480 frame. -/
def frameB : QPixmap :=
  { size := { wd := 640, ht := 480 }, bits := 30 }

/-- A variant with the size of the image area (100x100). -/
def img100x100 : QImage :=
  { size := { wd := 100, ht := 100 }, bits := 21 }

/-- A variant with the frame fitted into the image area (100x75). -/
def img100x75 : QImage :=
  { size := { wd := 100, ht := 75 }, bits := 22 }

/-- A variant made for another consumer (50x50). -/
def img50x50 : QImage :=
  { size := { wd := 50, ht := 50 }, bits := 23 }

end Sample

/-! ## `DVRServerRepository` (src/server/DVRServerRepository.cpp) -/

/-- A `DVRServer` as the repository sees it: its id and its display name. -/
structure DVRServer where
  id : Int
  displayName : String
deriving DecidableEq, Repr

/-- What `loadServers` reads from outside the repository: the child groups of the
`servers` settings group, `QString::toUInt` on a group name (`none` when `ok` is false,
otherwise the unsigned 32-bit value), and the settings reader. -/
structure ServerSettings where
  childGroups : List String
  toUInt : String → Option Nat
  readServer : Int → Option String

/-- Modelled from the spec: `DVRServerSettingsReader` is not among the sources (settings
persistence is an external collaborator). `readServer(id)` returns the server with the
identifier `id`, set up from its stored configuration (here its display name), or null
when the configuration is invalid. -/
def ServerSettings.readServerWithId (settings : ServerSettings) (id : Int) : Option DVRServer :=
  (settings.readServer id).map (fun name => { id := id, displayName := name })

/-- The members of `DVRServerRepository`, and the ghost list `created` of the ids of the
servers returned by `createServer` (latest last). -/
structure DVRServerRepository where
  m_servers : List DVRServer
  m_maxServerId : Int
  created : List Int
deriving DecidableEq, Repr

namespace DVRServerRepository

/-- Transcription of the constructor: no servers, `m_maxServerId(-1)`. -/
def construct : DVRServerRepository :=
  { m_servers := [], m_maxServerId := -1, created := [] }

/-- Transcription of `DVRServerRepository::createServer`: the new repository and the server
returned. `++m_maxServerId` on the largest `int` is undefined; the result is then `none`. -/
def createServer (repo : DVRServerRepository) (name : String) :
    Option (DVRServerRepository × DVRServer) :=
  if repo.m_maxServerId + 1 > 2147483647 then
    none
  else
    let id := repo.m_maxServerId + 1
    let repo1 : DVRServerRepository := { repo with m_maxServerId := id }
    let server : DVRServer := { id := id, displayName := name }
    some ({ repo1 with m_servers := repo1.m_servers ++ [server],
                       created := repo1.created ++ [id] }, server)

/-- The `foreach` loop of `loadServers` over the settings groups. -/
def loadGroups (settings : ServerSettings) :
    List String → DVRServerRepository → DVRServerRepository
  | [], repo => repo
  | group :: groups, repo =>
    match settings.toUInt group with
    | none => loadGroups settings groups repo
    | some u =>
      let id := toInt32 u
      match settings.readServerWithId id with
      | none => loadGroups settings groups repo
      | some server =>
        loadGroups settings groups
          { repo with m_servers := repo.m_servers ++ [server],
                      m_maxServerId := max repo.m_maxServerId id }

/-- Transcription of `DVRServerRepository::loadServers`. The result is `none` when
`Q_ASSERT(m_servers.isEmpty())` fails. -/
def loadServers (settings : ServerSettings) (repo : DVRServerRepository) :
    Option DVRServerRepository :=
  if repo.m_servers.isEmpty then some (loadGroups settings settings.childGroups repo) else none

/-- Transcription of `DVRServerRepository::serverCount`. -/
def serverCount (repo : DVRServerRepository) : Int :=
  repo.m_servers.length

/-- Transcription of `DVRServerRepository::serverExists`. -/
def serverExists (repo : DVRServerRepository) (server : DVRServer) : Bool :=
  repo.m_servers.contains server

/-- Transcription of `DVRServerRepository::onServerRemoved`: `removeOne` takes out the
first occurrence of the server, if there is one. -/
def onServerRemoved (repo : DVRServerRepository) (server : DVRServer) : DVRServerRepository :=
  { repo with m_servers := repo.m_servers.erase server }

/-- The states of a repository: the constructed one, and every state obtained by
`loadServers`, `createServer` or `onServerRemoved`. -/
inductive Reachable : DVRServerRepository → Prop where
  | construct : Reachable DVRServerRepository.construct
  | loadServers (settings : ServerSettings) {repo repo2 : DVRServerRepository} :
      Reachable repo → repo.loadServers settings = some repo2 → Reachable repo2
  | createServer (name : String) {repo repo2 : DVRServerRepository} {server : DVRServer} :
      Reachable repo → repo.createServer name = some (repo2, server) → Reachable repo2
  | onServerRemoved (server : DVRServer) {repo : DVRServerRepository} :
      Reachable repo → Reachable (repo.onServerRemoved server)

end DVRServerRepository

namespace Sample

/-- Stored configuration with the groups "5" and "junk": server 5 named "garage". -/
def settings : ServerSettings :=
  { childGroups := ["5", "junk"]
    toUInt := fun g => if g = "5" then some 5 else none
    readServer := fun id => if id = 5 then some "garage" else none }

/-- A repository that loaded server 5, created server 6 and saw server 6 removed. -/
def repo : DVRServerRepository :=
  { m_servers := [{ id := 5, displayName := "garage" }], m_maxServerId := 6, created := [6] }

end Sample

/-! ## `CameraAreaWidget` (src/ui/CameraAreaWidget.cpp) -/

/-- Qt `QList::at(i)` / `operator[](i)` with an `int` index: `none` when the index is out
of range (the list asserts). -/
def atInt {α : Type} (l : List α) (i : Int) : Option α :=
  if i < 0 then none else l[i.toNat]?

/-- Qt `QList::takeAt(i)`: the list without the item at index `i`; `none` when the index is
out of range. -/
def takeAt {α : Type} (l : List α) (i : Int) : Option (List α) :=
  match atInt l i with
  | none => none
  | some _ => some (l.eraseIdx i.toNat)

/-- The members of `CameraAreaWidget`: the grid of widgets (a list of rows), the two
counters, and the widgets being dragged (given by their grid positions). The grid layout
object mirrors `m_cameraWidgets` and is not modelled. -/
structure CameraAreaWidget where
  m_cameraWidgets : List (List LiveFeedWidget)
  m_rowCount : Int
  m_columnCount : Int
  m_dragWidgets : List (Nat × Nat)
deriving DecidableEq, Repr

namespace CameraAreaWidget

/-- The test made on a row by `setGridSize`: `empty` starts true and the first widget with
a camera makes it false and ends the `foreach`. -/
def rowIsEmpty : List LiveFeedWidget → Bool
  | [] => true
  | widget :: rest => if widget.m_camera.isValid then false else rowIsEmpty rest

/-- The test made on column `c` by `setGridSize`, going through the rows with `it->at(c)`;
`none` when a row has no item `c`. -/
def columnIsEmpty (c : Int) : List (List LiveFeedWidget) → Option Bool
  | [] => some true
  | row :: rest =>
    match atInt row c with
    | none => none
    | some widget => if widget.m_camera.isValid then some false else columnIsEmpty c rest

/-- Transcription of `CameraAreaWidget::removeRow`. -/
def removeRow (g : CameraAreaWidget) (r : Int) : Option CameraAreaWidget :=
  match takeAt g.m_cameraWidgets r with
  | none => none
  | some rows => some { g with m_cameraWidgets := rows, m_rowCount := g.m_rowCount - 1 }

/-- The loop of `removeColumn` over the rows: `delete m_cameraWidgets[r].takeAt(c)`. -/
def removeColumnRows (c : Int) : List (List LiveFeedWidget) → Option (List (List LiveFeedWidget))
  | [] => some []
  | row :: rest =>
    match takeAt row c with
    | none => none
    | some row1 =>
      match removeColumnRows c rest with
      | none => none
      | some rest1 => some (row1 :: rest1)

/-- Transcription of `CameraAreaWidget::removeColumn`. -/
def removeColumn (g : CameraAreaWidget) (c : Int) : Option CameraAreaWidget :=
  match removeColumnRows c g.m_cameraWidgets with
  | none => none
  | some rows => some { g with m_cameraWidgets := rows, m_columnCount := g.m_columnCount - 1 }

/-- The first loop of the row removal in `setGridSize` ("if there are any empty rows,
remove those first"), from index `r` with `remove` rows left to remove: the grid and the
value of `remove` when the loop ends. -/
def removeEmptyRows : Nat → CameraAreaWidget → Int → Int → Option (CameraAreaWidget × Int)
  | 0, _, _, _ => none
  | fuel + 1, g, r, remove =>
    if r < g.m_rowCount then
      match atInt g.m_cameraWidgets r with
      | none => none
      | some row =>
        if rowIsEmpty row then
          match removeRow g r with
          | none => none
          | some g1 =>
            if remove - 1 = 0 then some (g1, remove - 1)
            else removeEmptyRows fuel g1 (r - 1 + 1) (remove - 1)
        else
          removeEmptyRows fuel g (r + 1) remove
    else
      some (g, remove)

/-- The second loop of the row removal ("otherwise, take rows from the bottom"):
`for (r = size - 1; remove && r >= 0; --r, --remove) removeRow(r)`. -/
def removeBottomRows : Nat → CameraAreaWidget → Int → Int → Option (CameraAreaWidget × Int)
  | 0, _, _, _ => none
  | fuel + 1, g, r, remove =>
    if remove ≠ 0 ∧ r ≥ 0 then
      match removeRow g r with
      | none => none
      | some g1 => removeBottomRows fuel g1 (r - 1) (remove - 1)
    else
      some (g, remove)

/-- The first loop of the column removal in `setGridSize`. -/
def removeEmptyColumns : Nat → CameraAreaWidget → Int → Int → Option (CameraAreaWidget × Int)
  | 0, _, _, _ => none
  | fuel + 1, g, c, remove =>
    if c < g.m_columnCount then
      match columnIsEmpty c g.m_cameraWidgets with
      | none => none
      | some empty =>
        if empty then
          match removeColumn g c with
          | none => none
          | some g1 =>
            if remove - 1 = 0 then some (g1, remove - 1)
            else removeEmptyColumns fuel g1 (c - 1 + 1) (remove - 1)
        else
          removeEmptyColumns fuel g (c + 1) remove
    else
      some (g, remove)

/-- The second loop of the column removal:
`for (c = m_columnCount - 1; remove && c >= 0; --c, --remove) removeColumn(c)`. -/
def removeRightColumns : Nat → CameraAreaWidget → Int → Int → Option (CameraAreaWidget × Int)
  | 0, _, _, _ => none
  | fuel + 1, g, c, remove =>
    if remove ≠ 0 ∧ c ≥ 0 then
      match removeColumn g c with
      | none => none
      | some g1 => removeRightColumns fuel g1 (c - 1) (remove - 1)
    else
      some (g, remove)

/-- The block `if (m_rowCount > rows) { ... Q_ASSERT(!remove); }` of `setGridSize`. -/
def shrinkRows (fuel : Nat) (g : CameraAreaWidget) (rows : Int) : Option CameraAreaWidget :=
  if g.m_rowCount > rows then
    match removeEmptyRows fuel g 0 (g.m_rowCount - rows) with
    | none => none
    | some (g1, remove1) =>
      match removeBottomRows fuel g1 (g1.m_cameraWidgets.length - 1) remove1 with
      | none => none
      | some (g2, remove2) => if remove2 = 0 then some g2 else none
  else
    some g

/-- The block `if (m_columnCount > columns) { ... Q_ASSERT(!remove); }` of `setGridSize`. -/
def shrinkColumns (fuel : Nat) (g : CameraAreaWidget) (columns : Int) :
    Option CameraAreaWidget :=
  if g.m_columnCount > columns then
    match removeEmptyColumns fuel g 0 (g.m_columnCount - columns) with
    | none => none
    | some (g1, remove1) =>
      match removeRightColumns fuel g1 (g1.m_columnCount - 1) remove1 with
      | none => none
      | some (g2, remove2) => if remove2 = 0 then some g2 else none
  else
    some g

/-- The loop `while (m_columnCount < columns)`: every row gets a new widget appended;
`base` is the `QWidget` state of a newly made `LiveFeedWidget`. -/
def growColumns (base : QWidget) : Nat → CameraAreaWidget → Int → Option CameraAreaWidget
  | 0, _, _ => none
  | fuel + 1, g, columns =>
    if g.m_columnCount < columns then
      growColumns base fuel
        { g with m_cameraWidgets :=
                   g.m_cameraWidgets.map (fun row => row ++ [LiveFeedWidget.construct base]),
                 m_columnCount := g.m_columnCount + 1 }
        columns
    else
      some g

/-- The loop `while (m_rowCount < rows)`: a row of `m_columnCount` new widgets (the inner
`for (c = 0; c < m_columnCount; ++c)`) is appended. -/
def growRows (base : QWidget) : Nat → CameraAreaWidget → Int → Option CameraAreaWidget
  | 0, _, _ => none
  | fuel + 1, g, rows =>
    if g.m_rowCount < rows then
      growRows base fuel
        { g with m_cameraWidgets :=
                   g.m_cameraWidgets ++
                     [List.replicate g.m_columnCount.toNat (LiveFeedWidget.construct base)],
                 m_rowCount := g.m_rowCount + 1 }
        rows
    else
      some g

/-- The two assertions made by `setGridSize` on entry and on exit:
`m_cameraWidgets.size() == m_rowCount` and
`m_cameraWidgets.isEmpty() || m_cameraWidgets[0].size() == m_columnCount`. -/
def sizeAssertionsHold (g : CameraAreaWidget) : Bool :=
  decide ((g.m_cameraWidgets.length : Int) = g.m_rowCount) &&
    (match g.m_cameraWidgets with
     | [] => true
     | row :: _ => decide ((row.length : Int) = g.m_columnCount))

/-- Transcription of `CameraAreaWidget::setGridSize`. `fuel` bounds the number of
iterations of each loop; the result is `none` when an assertion fails, an index is out of
range or the fuel runs out. -/
def setGridSize (fuel : Nat) (base : QWidget) (g : CameraAreaWidget) (rows columns : Int) :
    Option CameraAreaWidget :=
  let rows1 := max 0 rows
  let columns1 := max 0 columns
  if rows1 = g.m_rowCount ∧ columns1 = g.m_columnCount then
    some g
  else if !g.sizeAssertionsHold then
    none
  else
    match shrinkRows fuel g rows1 with
    | none => none
    | some g1 =>
      match shrinkColumns fuel g1 columns1 with
      | none => none
      | some g2 =>
        match growColumns base fuel g2 columns1 with
        | none => none
        | some g3 =>
          match growRows base fuel g3 rows1 with
          | none => none
          | some g4 =>
            let g5 : CameraAreaWidget := { g4 with m_rowCount := rows1, m_columnCount := columns1 }
            if !g5.sizeAssertionsHold then none
            else some { g5 with m_dragWidgets := [] }

/-- Transcription of the constructor: empty grid with both counters 0, then
`setGridSize(3, 3)`. -/
def construct (fuel : Nat) (base : QWidget) : Option CameraAreaWidget :=
  setGridSize fuel base
    { m_cameraWidgets := [], m_rowCount := 0, m_columnCount := 0, m_dragWidgets := [] } 3 3

/-- Modelled from the spec: `addRow()` is an inline member declared in
`CameraAreaWidget.h`, which is not among the sources (grid layout is an external
collaborator); per the comment in `addCamera`, "Add a row or a column to make space", it
grows the grid by one row. -/
def addRow (fuel : Nat) (base : QWidget) (g : CameraAreaWidget) : Option CameraAreaWidget :=
  setGridSize fuel base g (g.m_rowCount + 1) g.m_columnCount

/-- Modelled from the spec: `addColumn()` is an inline member declared in
`CameraAreaWidget.h`, which is not among the sources; it grows the grid by one column. -/
def addColumn (fuel : Nat) (base : QWidget) (g : CameraAreaWidget) : Option CameraAreaWidget :=
  setGridSize fuel base g g.m_rowCount (g.m_columnCount + 1)

/-- The widget `m_cameraWidgets[r][c]`. -/
def widgetAt (rows : List (List LiveFeedWidget)) (r c : Int) : Option LiveFeedWidget :=
  match atInt rows r with
  | none => none
  | some row => atInt row c

/-- The call `m_cameraWidgets[r][c]->setCamera(camera)`. -/
def setCameraAt (env : Env) (g : CameraAreaWidget) (r c : Int) (camera : DVRCamera) :
    Option CameraAreaWidget :=
  match atInt g.m_cameraWidgets r with
  | none => none
  | some row =>
    match atInt row c with
    | none => none
    | some w =>
      some { g with m_cameraWidgets :=
        g.m_cameraWidgets.set r.toNat (row.set c.toNat (LiveFeedWidget.setCamera env w camera)) }

/-- The inner `foreach` of `addCamera` over one row: the row with the camera set on its
first widget without a camera, `none` when every widget of the row has a camera. -/
def addCameraInRow (env : Env) (camera : DVRCamera) :
    List LiveFeedWidget → Option (List LiveFeedWidget)
  | [] => none
  | w :: rest =>
    if !w.m_camera.isValid then
      some (LiveFeedWidget.setCamera env w camera :: rest)
    else
      match addCameraInRow env camera rest with
      | none => none
      | some rest1 => some (w :: rest1)

/-- The outer `foreach` of `addCamera` over the rows: `none` when the loops end without
the `return`. -/
def addCameraInRows (env : Env) (camera : DVRCamera) :
    List (List LiveFeedWidget) → Option (List (List LiveFeedWidget))
  | [] => none
  | row :: rest =>
    match addCameraInRow env camera row with
    | some row1 => some (row1 :: rest)
    | none =>
      match addCameraInRows env camera rest with
      | none => none
      | some rest1 => some (row :: rest1)

/-- Transcription of `CameraAreaWidget::addCamera`. -/
def addCamera (fuel : Nat) (base : QWidget) (env : Env) (g : CameraAreaWidget)
    (camera : DVRCamera) : Option CameraAreaWidget :=
  match addCameraInRows env camera g.m_cameraWidgets with
  | some rows => some { g with m_cameraWidgets := rows }
  | none =>
    if g.m_columnCount < g.m_rowCount then
      match addColumn fuel base g with
      | none => none
      | some g1 =>
        match (if g1.m_rowCount < 1 then addRow fuel base g1 else some g1) with
        | none => none
        | some g2 => setCameraAt env g2 0 (g2.m_columnCount - 1) camera
    else
      match addRow fuel base g with
      | none => none
      | some g1 =>
        match (if g1.m_columnCount < 1 then addColumn fuel base g1 else some g1) with
        | none => none
        | some g2 => setCameraAt env g2 (g2.m_rowCount - 1) 0 camera

end CameraAreaWidget

namespace CameraAreaWidget

/-- The grid is rectangular and agrees with the counters: `m_cameraWidgets` has
`m_rowCount` rows, each holding `m_columnCount` widgets. -/
def WellFormed (g : CameraAreaWidget) : Prop :=
  (g.m_cameraWidgets.length : Int) = g.m_rowCount
    ∧ ∀ row ∈ g.m_cameraWidgets, (row.length : Int) = g.m_columnCount

/-- A row is camera-free when no widget of the row has a camera. -/
def cameraFree (row : List LiveFeedWidget) : Bool :=
  row.all (fun w => !w.m_camera.isValid)

/-- The rows with the topmost `n` camera-free rows taken out (all of them when there are
fewer than `n`). -/
def withoutTopCameraFreeRows : Nat → List (List LiveFeedWidget) → List (List LiveFeedWidget)
  | 0, rows => rows
  | _ + 1, [] => []
  | n + 1, row :: rest =>
    if cameraFree row then withoutTopCameraFreeRows n rest
    else row :: withoutTopCameraFreeRows (n + 1) rest

end CameraAreaWidget

namespace Sample

/-- A 2x2 grid whose only camera is shown by the top left widget. -/
def grid : CameraAreaWidget :=
  { m_cameraWidgets := [[live, fresh], [fresh, fresh]], m_rowCount := 2, m_columnCount := 2,
    m_dragWidgets := [] }

end Sample

namespace Sample

/-- A 2x2 grid whose only camera is shown by the bottom left widget. -/
def gridB : CameraAreaWidget :=
  { m_cameraWidgets := [[fresh, fresh], [live, fresh]], m_rowCount := 2, m_columnCount := 2,
    m_dragWidgets := [] }

end Sample

namespace CameraAreaWidget

/-- Every widget of the row has a camera. -/
def rowFull (row : List LiveFeedWidget) : Prop :=
  ∀ w ∈ row, w.m_camera.isValid = true

end CameraAreaWidget

/-- What `autoFill` reads of a `DVRServer`: `server->api->isOnline()` and
`server->cameras()`. -/
structure DVRServerView where
  isOnline : Bool
  cameras : List DVRCamera
deriving DecidableEq, Repr

/-- Modelled from the spec: `canStream()` is declared in `core/DVRCamera.h`, which is not
among the sources. A camera handle without camera data cannot stream; for a handle with
data, `streamable` tells whether that camera has a feed to open. -/
def DVRCamera.canStream (streamable : Nat → Bool) (c : DVRCamera) : Bool :=
  match c.d with
  | none => false
  | some k => streamable k

namespace CameraAreaWidget

/-- The inner `foreach` of the first loop of `autoFill`: the set `existing` (kept as a
list without repetitions) and the counter `available` after one row. -/
def countRow : List LiveFeedWidget → List DVRCamera × Int → List DVRCamera × Int
  | [], acc => acc
  | w :: rest, (existing, available) =>
    if w.m_camera.isValid then countRow rest (existing.insert w.m_camera, available)
    else countRow rest (existing, available + 1)

/-- The first loop of `autoFill` over the rows. -/
def countRows : List (List LiveFeedWidget) → List DVRCamera × Int → List DVRCamera × Int
  | [], acc => acc
  | row :: rest, acc => countRows rest (countRow row acc)

/-- The variables of `autoFill` that its camera loop carries along. -/
structure FillState where
  g : CameraAreaWidget
  pRow : Int
  pCol : Int
  available : Int

/-- How the body of the camera loop ends: control passes to `nextCamera`, or `autoFill`
has returned. -/
inductive Flow where
  | nextCamera (s : FillState)
  | returned (g : CameraAreaWidget)

/-- The two nested `for` loops of `autoFill` that look for the next widget without a
camera, from `(pRow, pCol)` on, and set `camera` on it. -/
def placeCamera (env : Env) (camera : DVRCamera) : Nat → FillState → Option Flow
  | 0, _ => none
  | fuel + 1, s =>
    if s.pRow < s.g.m_rowCount then
      if s.pCol < s.g.m_columnCount then
        match widgetAt s.g.m_cameraWidgets s.pRow s.pCol with
        | none => none
        | some w =>
          if !w.m_camera.isValid then
            match setCameraAt env s.g s.pRow s.pCol camera with
            | none => none
            | some g1 =>
              if s.available - 1 = 0 then some (Flow.returned g1)
              else some (Flow.nextCamera
                { g := g1, pRow := s.pRow, pCol := s.pCol + 1, available := s.available - 1 })
          else
            placeCamera env camera fuel { s with pCol := s.pCol + 1 }
      else
        placeCamera env camera fuel { s with pCol := 0, pRow := s.pRow + 1 }
    else
      some (Flow.nextCamera s)

/-- The `foreach` of `autoFill` over the cameras of one server. -/
def fillCameras (fuel : Nat) (env : Env) (streamable : Nat → Bool) (existing : List DVRCamera) :
    List DVRCamera → FillState → Option Flow
  | [], s => some (Flow.nextCamera s)
  | camera :: rest, s =>
    if !existing.contains camera && camera.canStream streamable then
      match placeCamera env camera fuel s with
      | none => none
      | some (Flow.returned g) => some (Flow.returned g)
      | some (Flow.nextCamera s1) => fillCameras fuel env streamable existing rest s1
    else
      fillCameras fuel env streamable existing rest s

/-- The `foreach` of `autoFill` over the servers; servers that are not online are
skipped. -/
def fillServers (fuel : Nat) (env : Env) (streamable : Nat → Bool) (existing : List DVRCamera) :
    List DVRServerView → FillState → Option Flow
  | [], s => some (Flow.nextCamera s)
  | server :: rest, s =>
    if !server.isOnline then
      fillServers fuel env streamable existing rest s
    else
      match fillCameras fuel env streamable existing server.cameras s with
      | none => none
      | some (Flow.returned g) => some (Flow.returned g)
      | some (Flow.nextCamera s1) => fillServers fuel env streamable existing rest s1

/-- Transcription of `CameraAreaWidget::autoFill`; `servers` is `bcApp->servers()`. `fuel`
bounds the iterations of the search loops for one camera; the result is `none` when an
index is out of range or the fuel runs out. -/
def autoFill (fuel : Nat) (env : Env) (streamable : Nat → Bool) (servers : List DVRServerView)
    (g : CameraAreaWidget) : Option CameraAreaWidget :=
  let counted := countRows g.m_cameraWidgets ([], 0)
  if counted.2 = 0 then
    some g
  else
    match fillServers fuel env streamable counted.1 servers
        { g := g, pRow := 0, pCol := 0, available := counted.2 } with
    | none => none
    | some (Flow.returned g1) => some g1
    | some (Flow.nextCamera s) => some s.g

/-- The cameras displayed in the grid. -/
def displayedCameras (rows : List (List LiveFeedWidget)) : List DVRCamera :=
  (rows.flatten.filter (fun w => w.m_camera.isValid)).map (fun w => w.m_camera)

/-- The eligible cameras, in server order then camera order: the cameras of the online
servers that can stream and are not displayed in the grid. -/
def eligibleCameras (streamable : Nat → Bool) (servers : List DVRServerView)
    (rows : List (List LiveFeedWidget)) : List DVRCamera :=
  ((servers.filter (fun server => server.isOnline)).flatMap (fun server => server.cameras)).filter
    (fun camera => !(displayedCameras rows).contains camera && camera.canStream streamable)

/-- The number of widgets without a camera. -/
def cameraLessCount (rows : List (List LiveFeedWidget)) : Nat :=
  (rows.flatten.filter (fun w => !w.m_camera.isValid)).length

/-- The cameras assigned in order, one per camera-less widget in row-major order: each
camera in turn is set on the first widget without a camera (found as `addCamera` finds
it), until no such widget remains or the cameras are used up. -/
def assignInOrder (env : Env) : List DVRCamera → List (List LiveFeedWidget) →
    List (List LiveFeedWidget)
  | [], rows => rows
  | camera :: rest, rows =>
    match addCameraInRows env camera rows with
    | none => rows
    | some rows1 => assignInOrder env rest rows1

/-- The two grids have the same shape and every widget that has a camera in the first is
unchanged in the second. -/
def KeepsWidgetsWithCameras (rows rows2 : List (List LiveFeedWidget)) : Prop :=
  List.Forall₂ (List.Forall₂ (fun w w2 => w.m_camera.isValid = true → w2 = w)) rows rows2

end CameraAreaWidget

namespace Sample

/-- Two servers: the first, online, has the displayed camera 1, camera 2 and a camera 3
that cannot stream; the second is offline. -/
def servers : List DVRServerView :=
  [{ isOnline := true, cameras := [{ d := some 1 }, { d := some 2 }, { d := some 3 }] },
   { isOnline := false, cameras := [{ d := some 4 }] }]

/-- Every camera but camera 3 can stream. -/
def streamable (k : Nat) : Bool :=
  decide (k ≠ 3)

end Sample

namespace CameraAreaWidget

/-- The grid at which a `Flow` ends. -/
def Flow.grid : Flow → CameraAreaWidget
  | Flow.nextCamera s => s.g
  | Flow.returned g => g

/-- The invariant of the camera loop of `autoFill`: the grid is well formed; `(pRow, pCol)`
points into a row, every widget above that row or to the left of the position in it has a
camera; `available` is the number of widgets without a camera, and it is not 0. -/
def FillInv (s : FillState) : Prop :=
  s.g.WellFormed
    ∧ (∃ above pre suf below, s.g.m_cameraWidgets = above ++ (pre ++ suf) :: below
        ∧ s.pRow = (above.length : Int) ∧ s.pCol = (pre.length : Int)
        ∧ (∀ row ∈ above, rowFull row) ∧ rowFull pre)
    ∧ s.available = (cameraLessCount s.g.m_cameraWidgets : Int)
    ∧ 0 < s.available

end CameraAreaWidget

/-! ## Properties of `LiveFeedWidget::updateFrame` -/

namespace LiveFeedWidget

theorem ensurePolished_idem (w : LiveFeedWidget) :
    w.ensurePolished.ensurePolished = w.ensurePolished := by
  unfold ensurePolished
  by_cases h : w.polished = true
  · simp [h]
  · simp [h, event]

theorem imageArea_ensurePolished (w : LiveFeedWidget) :
    w.ensurePolished.imageArea = w.imageArea := by
  simp [imageArea, ensurePolished_idem]

theorem scanScaledFrames_eq_find (desired : QSize) (cur : QPixmap) (l : List QImage) :
    scanScaledFrames desired cur l =
      match l.find? (fun it => decide (it.size = desired)) with
      | some it => QPixmap.fromImage it
      | none => cur := by
  induction l with
  | nil => rfl
  | cons it rest ih =>
    by_cases h : it.size = desired
    · simp [scanScaledFrames, List.find?, h]
    · simp [scanScaledFrames, List.find?, h, ih]

theorem scanScaledFrames_first (desired : QSize) (cur : QPixmap) (l : List QImage) :
    (∃ i, ∃ h : i < l.length, (l.get ⟨i, h⟩).size = desired
        ∧ (∀ j, ∀ hj : j < l.length, j < i → (l.get ⟨j, hj⟩).size ≠ desired)
        ∧ scanScaledFrames desired cur l = QPixmap.fromImage (l.get ⟨i, h⟩))
    ∨ ((∀ img ∈ l, img.size ≠ desired) ∧ scanScaledFrames desired cur l = cur) := by
  induction l with
  | nil => right; simp [scanScaledFrames]
  | cons it rest ih =>
    by_cases h : it.size = desired
    · left
      refine ⟨0, by simp, by simpa using h, ?_, by simp [scanScaledFrames, h]⟩
      intro j hj hlt
      omega
    · rcases ih with ⟨i, hi, hsz, hbefore, hres⟩ | ⟨hnone, hres⟩
      · left
        refine ⟨i + 1, by simp; omega, by simpa using hsz, ?_, by simpa [scanScaledFrames, h] using hres⟩
        intro j hj hlt
        cases j with
        | zero => simpa using h
        | succ k =>
          have hk : k < rest.length := by simpa using hj
          simpa using hbefore k hk (by omega)
      · right
        refine ⟨?_, by simpa [scanScaledFrames, h] using hres⟩
        intro img himg
        rcases List.mem_cons.mp himg with rfl | hmem
        · exact h
        · exact hnone img hmem

theorem updateFrame_currentFrame (env : Env) (w : LiveFeedWidget) (frame : QPixmap)
    (l : List QImage) (hp : w.m_isPaused = false) :
    (updateFrame env w frame l).m_currentFrame
      = scanScaledFrames (w.desiredSize frame) frame l := by
  unfold updateFrame
  simp only [hp, Bool.false_eq_true, if_false]
  split
  · split <;> rfl
  · rfl

theorem updateFrame_paused (env : Env) (w : LiveFeedWidget) (frame : QPixmap)
    (l : List QImage) (hp : w.m_isPaused = true) :
    updateFrame env w frame l = w := by
  simp [updateFrame, hp]

theorem scanScaledFrames_removed (desired : QSize) (cur : QPixmap) (l2 l : List QImage)
    (hrem : RemovedOtherSizes desired l2 l) :
    scanScaledFrames desired cur l2 = scanScaledFrames desired cur l := by
  induction hrem with
  | nil => rfl
  | keep it _ ih =>
    by_cases h : it.size = desired
    · simp [scanScaledFrames, h]
    · simp [scanScaledFrames, h, ih]
  | drop it hne _ ih =>
    simp [scanScaledFrames, hne, ih]

theorem updateFrame_first_variant (env : Env) (w : LiveFeedWidget)
    (frame : QPixmap) (l : List QImage) (hp : w.m_isPaused = false) :
    (∃ i, ∃ h : i < l.length,
        (l.get ⟨i, h⟩).size = frame.size.scale w.imageArea.size AspectRatioMode.KeepAspectRatio
        ∧ (∀ j, ∀ hj : j < l.length, j < i →
            (l.get ⟨j, hj⟩).size ≠ frame.size.scale w.imageArea.size AspectRatioMode.KeepAspectRatio)
        ∧ (updateFrame env w frame l).m_currentFrame = QPixmap.fromImage (l.get ⟨i, h⟩))
    ∨ ((∀ img ∈ l, img.size ≠ frame.size.scale w.imageArea.size AspectRatioMode.KeepAspectRatio)
        ∧ (updateFrame env w frame l).m_currentFrame = frame) := by
  rw [updateFrame_currentFrame env w frame l hp]
  exact scanScaledFrames_first (w.desiredSize frame) frame l

/-- C1. For an unpaused widget, after `updateFrame` the current frame is the first image of
the variant list whose size equals the frame size scaled into the image area (aspect ratio
kept), and it is the full-resolution frame when no image of the list has that size. -/
theorem C1_updateFrame_picks_first_variant_of_desired_size (env : Env) (w : LiveFeedWidget)
    (frame : QPixmap) (l : List QImage) (hp : w.m_isPaused = false) :
    (∃ i, ∃ h : i < l.length,
        (l.get ⟨i, h⟩).size
          = frame.size.scale w.imageArea.size AspectRatioMode.KeepAspectRatio
        ∧ (∀ j, ∀ hj : j < l.length, j < i →
            (l.get ⟨j, hj⟩).size
              ≠ frame.size.scale w.imageArea.size AspectRatioMode.KeepAspectRatio)
        ∧ (updateFrame env w frame l).m_currentFrame = QPixmap.fromImage (l.get ⟨i, h⟩))
    ∨ ((∀ img ∈ l,
          img.size ≠ frame.size.scale w.imageArea.size AspectRatioMode.KeepAspectRatio)
        ∧ (updateFrame env w frame l).m_currentFrame = frame) := by
  exact updateFrame_first_variant env w frame l hp

/-- Witness of C1: the live sample widget (image area 100x100) receiving a 640x480 frame
with a 50x50 and a 100x75 variant. -/
theorem C1_witness :
    Sample.live.m_isPaused = false
    ∧ ((∃ i, ∃ h : i < [Sample.img50x50, Sample.img100x75].length,
          ([Sample.img50x50, Sample.img100x75].get ⟨i, h⟩).size
            = Sample.frame.size.scale Sample.live.imageArea.size
                AspectRatioMode.KeepAspectRatio
          ∧ (∀ j, ∀ hj : j < [Sample.img50x50, Sample.img100x75].length, j < i →
              ([Sample.img50x50, Sample.img100x75].get ⟨j, hj⟩).size
                ≠ Sample.frame.size.scale Sample.live.imageArea.size
                    AspectRatioMode.KeepAspectRatio)
          ∧ (updateFrame Sample.env Sample.live Sample.frame
              [Sample.img50x50, Sample.img100x75]).m_currentFrame
              = QPixmap.fromImage ([Sample.img50x50, Sample.img100x75].get ⟨i, h⟩))
        ∨ ((∀ img ∈ [Sample.img50x50, Sample.img100x75],
              img.size ≠ Sample.frame.size.scale Sample.live.imageArea.size
                AspectRatioMode.KeepAspectRatio)
            ∧ (updateFrame Sample.env Sample.live Sample.frame
                [Sample.img50x50, Sample.img100x75]).m_currentFrame = Sample.frame)) :=
  ⟨by decide,
    C1_updateFrame_picks_first_variant_of_desired_size Sample.env Sample.live Sample.frame
      [Sample.img50x50, Sample.img100x75] (by decide)⟩

/-- C2, counterexample. The sample widget registers 100x100 (its image area) through
`addScaleSize`; the variant list of a 640x480 frame holds an image of exactly 100x100; yet
after `updateFrame` the unpaused widget shows the full-resolution 640x480 frame, because it
looks for the frame fitted into the area with its aspect ratio kept, 100x75. -/
theorem C2_counterexample :
    (addScaleSize Sample.live []).2 = [{ wd := 100, ht := 100 }]
    ∧ Sample.live.m_isPaused = false
    ∧ Sample.img100x100 ∈ [Sample.img100x100]
    ∧ Sample.img100x100.size = { wd := 100, ht := 100 }
    ∧ (updateFrame Sample.env Sample.live Sample.frame [Sample.img100x100]).m_currentFrame
        = Sample.frame
    ∧ (updateFrame Sample.env Sample.live Sample.frame
        [Sample.img100x100]).m_currentFrame.size ≠ { wd := 100, ht := 100 } := by
  decide

/-- C2, amended. For an unpaused widget that registered the size `registered` through
`addScaleSize`: if the variant list contains an image whose size is the frame size scaled
into `registered` with the aspect ratio kept, then after `updateFrame` the current frame is
an image of that scaled size. -/
theorem C2_updateFrame_delivers_variant_fitted_to_registered_size (env : Env)
    (w : LiveFeedWidget) (frame : QPixmap) (l : List QImage) (sizes : List QSize)
    (registered : QSize) (hp : w.m_isPaused = false)
    (hreg : (addScaleSize w sizes).2 = sizes ++ [registered])
    (hex : ∃ img ∈ l,
      img.size = frame.size.scale registered AspectRatioMode.KeepAspectRatio) :
    (updateFrame env w frame l).m_currentFrame.size
      = frame.size.scale registered AspectRatioMode.KeepAspectRatio := by
  have hr : w.imageArea.size = registered := by
    have h := List.append_cancel_left hreg
    simpa using h
  rcases updateFrame_first_variant env w frame l hp with ⟨i, h, hsz, -, hres⟩ | ⟨hnone, -⟩
  · rw [hres, ← hr]
    simpa [QPixmap.fromImage] using hsz
  · rcases hex with ⟨img, hmem, himg⟩
    exact absurd (hr ▸ himg) (hnone img hmem)

/-- Witness of the amended C2: the sample widget registered 100x100 and the list holds the
100x75 variant of the 640x480 frame. -/
theorem C2_witness :
    Sample.live.m_isPaused = false
    ∧ (addScaleSize Sample.live []).2 = [] ++ [{ wd := 100, ht := 100 }]
    ∧ (updateFrame Sample.env Sample.live Sample.frame
        [Sample.img100x100, Sample.img100x75]).m_currentFrame.size
        = Sample.frame.size.scale { wd := 100, ht := 100 } AspectRatioMode.KeepAspectRatio :=
  ⟨by decide, by decide,
    C2_updateFrame_delivers_variant_fitted_to_registered_size Sample.env Sample.live
      Sample.frame [Sample.img100x100, Sample.img100x75] [] { wd := 100, ht := 100 }
      (by decide) (by decide) ⟨Sample.img100x75, by decide, by decide⟩⟩

/-- C3. Removing from the variant list images whose size differs from the widget's desired
size does not change what `updateFrame` does: the widget ends with the same current frame
(indeed in the same state). -/
theorem C3_updateFrame_ignores_removed_other_sizes (env : Env) (w : LiveFeedWidget)
    (frame : QPixmap) (l l2 : List QImage)
    (hrem : RemovedOtherSizes (frame.size.scale w.imageArea.size
      AspectRatioMode.KeepAspectRatio) l2 l) :
    (updateFrame env w frame l2).m_currentFrame = (updateFrame env w frame l).m_currentFrame
    ∧ updateFrame env w frame l2 = updateFrame env w frame l := by
  have hscan : scanScaledFrames (w.desiredSize frame) frame l2
      = scanScaledFrames (w.desiredSize frame) frame l :=
    scanScaledFrames_removed _ frame l2 l hrem
  have hall : updateFrame env w frame l2 = updateFrame env w frame l := by
    unfold updateFrame
    simp only [hscan]
  exact ⟨by rw [hall], hall⟩

/-- Witness of C3: dropping the 50x50 variant of another consumer from the list. -/
theorem C3_witness :
    RemovedOtherSizes (Sample.frame.size.scale Sample.live.imageArea.size
        AspectRatioMode.KeepAspectRatio)
      [Sample.img100x75] [Sample.img50x50, Sample.img100x75]
    ∧ (updateFrame Sample.env Sample.live Sample.frame [Sample.img100x75]).m_currentFrame
        = (updateFrame Sample.env Sample.live Sample.frame
            [Sample.img50x50, Sample.img100x75]).m_currentFrame :=
  ⟨RemovedOtherSizes.drop _ (by decide) (RemovedOtherSizes.keep _ RemovedOtherSizes.nil),
    (C3_updateFrame_ignores_removed_other_sizes Sample.env Sample.live Sample.frame
      [Sample.img50x50, Sample.img100x75] [Sample.img100x75]
      (RemovedOtherSizes.drop _ (by decide)
        (RemovedOtherSizes.keep _ RemovedOtherSizes.nil))).1⟩

/-! ## Pausing -/

theorem setStream_isPaused (env : Env) (w : LiveFeedWidget) (stream : Option Nat) :
    (setStream env w stream).m_isPaused = w.m_isPaused := by
  unfold setStream
  split
  · rfl
  · cases stream with
    | none =>
      simp only [clearStatusMessage, setStatusMessage, isPaused]
      split <;> split <;> rfl
    | some p =>
      simp only [clearStatusMessage, setStatusMessage, streamSizeChanged, resize, call]
      split <;> split <;> split <;> (try split) <;> rfl

theorem setStream_stream (env : Env) (w : LiveFeedWidget) (stream : Option Nat) :
    (setStream env w stream).m_stream
      = if w.m_isPaused = true ∧ stream.isSome = true then w.m_stream else stream := by
  unfold setStream
  by_cases h : w.isPaused = true ∧ stream.isSome = true
  · have h2 : w.m_isPaused = true ∧ stream.isSome = true := h
    simp [h.1, h.2, h2.1]
  · have h2 : ¬ (w.m_isPaused = true ∧ stream.isSome = true) := h
    have h3 : (w.isPaused && stream.isSome) = false := by
      simpa [Bool.and_eq_true] using h
    rw [if_neg h2]
    simp only [h3, Bool.false_eq_true, if_false]
    cases stream with
    | none =>
      simp only [clearStatusMessage, setStatusMessage, isPaused]
      split <;> split <;> rfl
    | some p =>
      simp only [clearStatusMessage, setStatusMessage, streamSizeChanged, resize, call]
      split <;> split <;> split <;> (try split) <;> rfl

theorem setStream_none_of_paused (env : Env) (w : LiveFeedWidget)
    (hp : w.m_isPaused = true) :
    (setStream env w none).m_currentFrame = w.m_currentFrame
    ∧ (setStream env w none).m_statusMsg = ""
    ∧ (setStream env w none).calls
        = w.calls ++ (match w.m_stream with
          | some p => [Call.streamDisconnect p]
          | none => []) := by
  unfold setStream
  simp only [isPaused, hp, Option.isSome_none, Bool.and_false, Bool.false_eq_true, if_false,
    clearStatusMessage, setStatusMessage, call, Bool.not_true]
  cases w.m_stream <;> simp [hp]

/-- C4. Entering pause preserves the last frame: for an unpaused widget with a camera,
`setPaused(true)` leaves the current frame as it was, marks the widget paused, detaches it
from its stream (the only call it makes is the disconnect from the stream it had) and
leaves an empty status message rather than the "No Video" placeholder. -/
theorem C4_setPaused_true_keeps_frame (env : Env) (w : LiveFeedWidget)
    (hc : w.m_camera.isValid = true) (hp : w.m_isPaused = false) :
    (setPaused env w true).m_currentFrame = w.m_currentFrame
    ∧ (setPaused env w true).m_isPaused = true
    ∧ (setPaused env w true).m_stream = none
    ∧ (setPaused env w true).m_statusMsg = ""
    ∧ (setPaused env w true).m_statusMsg ≠ "No\nVideo"
    ∧ (setPaused env w true).calls
        = w.calls ++ (match w.m_stream with
          | some p => [Call.streamDisconnect p]
          | none => []) := by
  have hset : setPaused env w true = setStream env { w with m_isPaused := true } none := by
    simp [setPaused, hc, hp]
  have h := setStream_none_of_paused env { w with m_isPaused := true } rfl
  rw [hset]
  refine ⟨h.1, ?_, ?_, h.2.1, ?_, h.2.2⟩
  · rw [setStream_isPaused]
  · rw [setStream_stream]; simp
  · rw [h.2.1]; decide

/-- Witness of C4: pausing the live sample widget, which shows the stream's frame. -/
theorem C4_witness :
    Sample.live.m_camera.isValid = true ∧ Sample.live.m_isPaused = false
    ∧ (setPaused Sample.env Sample.live true).m_currentFrame
        = { size := { wd := 640, ht := 480 }, bits := 10 }
    ∧ (setPaused Sample.env Sample.live true).m_isPaused = true
    ∧ (setPaused Sample.env Sample.live true).m_stream = none :=
  ⟨by decide, by decide,
    (C4_setPaused_true_keeps_frame Sample.env Sample.live (by decide) (by decide)).1.trans
      (by decide),
    (C4_setPaused_true_keeps_frame Sample.env Sample.live (by decide) (by decide)).2.1,
    (C4_setPaused_true_keeps_frame Sample.env Sample.live (by decide) (by decide)).2.2.1⟩

theorem setStream_inv (env : Env) (w : LiveFeedWidget) (stream : Option Nat)
    (hinv : w.m_isPaused = true → w.m_stream = none) :
    (setStream env w stream).m_isPaused = true → (setStream env w stream).m_stream = none := by
  rw [setStream_isPaused, setStream_stream]
  intro hp
  cases stream with
  | none => simp
  | some p => simpa [hp] using hinv hp

theorem setCamera_inv (env : Env) (w : LiveFeedWidget) (c : DVRCamera)
    (hinv : w.m_isPaused = true → w.m_stream = none) :
    (setCamera env w c).m_isPaused = true → (setCamera env w c).m_stream = none := by
  unfold setCamera
  split
  · exact hinv
  · simp only []
    split
    · intro hp
      simp [setStatusMessage] at hp
    · apply setStream_inv
      intro hp
      simp [call] at hp

theorem cameraDataUpdated_inv (env : Env) (w : LiveFeedWidget)
    (hinv : w.m_isPaused = true → w.m_stream = none) :
    (cameraDataUpdated env w).m_isPaused = true → (cameraDataUpdated env w).m_stream = none := by
  unfold cameraDataUpdated
  simp only []
  split
  · exact setStream_inv env w _ hinv
  · exact hinv

theorem setPaused_inv (env : Env) (w : LiveFeedWidget) (paused : Bool)
    (hinv : w.m_isPaused = true → w.m_stream = none) :
    (setPaused env w paused).m_isPaused = true → (setPaused env w paused).m_stream = none := by
  unfold setPaused
  split
  · exact hinv
  · split
    · intro _
      rw [setStream_stream]; simp
    · intro hp
      rw [setStream_isPaused] at hp
      simp at hp

theorem ensurePolished_isPaused_stream (w : LiveFeedWidget) :
    w.ensurePolished.m_isPaused = w.m_isPaused ∧ w.ensurePolished.m_stream = w.m_stream := by
  unfold ensurePolished event
  split
  · exact ⟨rfl, rfl⟩
  · split <;> exact ⟨rfl, rfl⟩

theorem updateFrame_isPaused_stream (env : Env) (w : LiveFeedWidget) (frame : QPixmap)
    (l : List QImage) :
    (updateFrame env w frame l).m_isPaused = w.m_isPaused
    ∧ (updateFrame env w frame l).m_stream = w.m_stream := by
  have he := ensurePolished_isPaused_stream w
  unfold updateFrame
  split
  · exact ⟨rfl, rfl⟩
  · simp only []
    split
    · split <;> exact he
    · exact he

theorem mjpegStateChanged_isPaused_stream (env : Env) (w w2 : LiveFeedWidget) (state : Int)
    (h : mjpegStateChanged env w state = some w2) :
    w2.m_isPaused = w.m_isPaused ∧ w2.m_stream = w.m_stream := by
  unfold mjpegStateChanged at h
  split at h
  · cases h; exact ⟨rfl, rfl⟩
  · split at h
    · cases h
    · simp only [setToolTip, setStatusMessage, clearStatusMessage] at h
      split_ifs at h <;> cases h <;> exact ⟨rfl, rfl⟩

theorem reachable_inv (w : LiveFeedWidget) (hr : Reachable w) :
    w.m_isPaused = true → w.m_stream = none := by
  induction hr with
  | construct base => intro _; rfl
  | setCamera env c _ ih => exact setCamera_inv env _ c ih
  | setStream env stream _ ih => exact setStream_inv env _ stream ih
  | cameraDataUpdated env _ ih => exact cameraDataUpdated_inv env _ ih
  | setPaused env paused _ ih => exact setPaused_inv env _ paused ih
  | updateFrame env frame l _ ih =>
    rw [(updateFrame_isPaused_stream env _ frame l).1, (updateFrame_isPaused_stream env _ frame l).2]
    exact ih
  | mjpegStateChanged env state _ h ih =>
    rw [(mjpegStateChanged_isPaused_stream env _ _ state h).1,
      (mjpegStateChanged_isPaused_stream env _ _ state h).2]
    exact ih
  | addScaleSize sizes _ ih =>
    simp only [addScaleSize]
    rw [(ensurePolished_isPaused_stream _).1, (ensurePolished_isPaused_stream _).2]
    exact ih
  | streamSizeChanged size _ ih =>
    simp only [streamSizeChanged, resize]
    split <;> exact ih
  | event e _ ih =>
    simp only [event]
    split <;> exact ih

/-- C5. A paused widget never holds a stream: in every reachable state, `m_isPaused` implies
that `m_stream` is null; and on such a state `setStream` with a non-null stream and
`cameraDataUpdated` return the widget unchanged, so they neither attach nor start a
stream. -/
theorem C5_paused_widget_holds_no_stream (w : LiveFeedWidget) (hr : Reachable w)
    (hp : w.m_isPaused = true) :
    w.m_stream = none
    ∧ (∀ (env : Env) (p : Nat), setStream env w (some p) = w)
    ∧ (∀ env : Env, cameraDataUpdated env w = w) := by
  have hnone : w.m_stream = none := reachable_inv w hr hp
  have hset : ∀ (env : Env) (p : Nat), setStream env w (some p) = w := by
    intro env p
    simp [setStream, isPaused, hp]
  refine ⟨hnone, hset, ?_⟩
  intro env
  unfold cameraDataUpdated
  simp only []
  split
  · cases hq : env.mjpegStream w.m_camera with
    | none => simp_all
    | some q => exact hset env q
  · rfl

/-- Witness of C5: the sample widget after `setCamera` and `setPaused(true)`. -/
theorem C5_witness :
    Reachable Sample.paused ∧ Sample.paused.m_isPaused = true
    ∧ Sample.paused.m_stream = none
    ∧ setStream Sample.env Sample.paused (some 7) = Sample.paused :=
  ⟨Reachable.setPaused Sample.env true
      (Reachable.setCamera Sample.env Sample.camera (Reachable.construct Sample.base)),
    by decide,
    (C5_paused_widget_holds_no_stream Sample.paused
      (Reachable.setPaused Sample.env true
        (Reachable.setCamera Sample.env Sample.camera (Reachable.construct Sample.base)))
      (by decide)).1,
    (C5_paused_widget_holds_no_stream Sample.paused
      (Reachable.setPaused Sample.env true
        (Reachable.setCamera Sample.env Sample.camera (Reachable.construct Sample.base)))
      (by decide)).2.1 Sample.env 7⟩

/-- C6. While a widget is paused its displayed frame stays stale: `updateFrame` and
`mjpegStateChanged` return the paused widget as it was; in particular its current frame,
its status message and its paused flag are unchanged. -/
theorem C6_paused_widget_ignores_notifications (env : Env) (w : LiveFeedWidget)
    (frame : QPixmap) (l : List QImage) (state : Int) (hp : w.m_isPaused = true) :
    (updateFrame env w frame l).m_currentFrame = w.m_currentFrame
    ∧ (updateFrame env w frame l).m_statusMsg = w.m_statusMsg
    ∧ (updateFrame env w frame l).m_isPaused = w.m_isPaused
    ∧ updateFrame env w frame l = w
    ∧ mjpegStateChanged env w state = some w := by
  have hu := updateFrame_paused env w frame l hp
  refine ⟨by rw [hu], by rw [hu], by rw [hu], hu, ?_⟩
  simp [mjpegStateChanged, hp]

/-- Witness of C6: a new frame and an error notification reach the paused sample widget. -/
theorem C6_witness :
    Sample.paused.m_isPaused = true
    ∧ updateFrame Sample.env Sample.paused Sample.frame [Sample.img100x75] = Sample.paused
    ∧ mjpegStateChanged Sample.env Sample.paused (-3) = some Sample.paused :=
  ⟨by decide,
    (C6_paused_widget_ignores_notifications Sample.env Sample.paused Sample.frame
      [Sample.img100x75] (-3) (by decide)).2.2.2.1,
    (C6_paused_widget_ignores_notifications Sample.env Sample.paused Sample.frame
      [Sample.img100x75] (-3) (by decide)).2.2.2.2⟩

theorem updateFrame_imageArea (env : Env) (w : LiveFeedWidget) (frame : QPixmap)
    (l : List QImage) :
    (updateFrame env w frame l).imageArea = w.imageArea := by
  have hkey : ∀ (a : QPixmap) (b : String),
      ({ w.ensurePolished with m_currentFrame := a, m_statusMsg := b } : LiveFeedWidget).imageArea
        = w.imageArea := by
    intro a b
    rw [← imageArea_ensurePolished w]
    simp only [imageArea, ensurePolished, event, rect]
    split <;> rfl
  have hkey2 : ∀ (a : QPixmap),
      ({ w.ensurePolished with m_currentFrame := a } : LiveFeedWidget).imageArea
        = w.imageArea := by
    intro a
    exact hkey a w.ensurePolished.m_statusMsg
  unfold updateFrame
  split
  · rfl
  · simp only []
    split
    · split
      · exact hkey _ _
      · exact hkey2 _
    · exact hkey2 _

/-- C7. Deliver latest, never queue: for an unpaused widget, the current frame held after
two successive notifications `(f1, l1)` then `(f2, l2)` is the one held after delivering
only `(f2, l2)`; more generally the current frame after a notification is the same for any
two unpaused widget states with the same image area, whatever they showed before. -/
theorem C7_updateFrame_delivers_latest (env1 env2 : Env) (w : LiveFeedWidget)
    (f1 f2 : QPixmap) (l1 l2 : List QImage) (hp : w.m_isPaused = false) :
    (updateFrame env2 (updateFrame env1 w f1 l1) f2 l2).m_currentFrame
      = (updateFrame env2 w f2 l2).m_currentFrame
    ∧ (∀ v : LiveFeedWidget, v.m_isPaused = false → v.imageArea = w.imageArea →
        (updateFrame env2 v f2 l2).m_currentFrame
          = (updateFrame env2 w f2 l2).m_currentFrame) := by
  have hgen : ∀ v : LiveFeedWidget, v.m_isPaused = false → v.imageArea = w.imageArea →
      (updateFrame env2 v f2 l2).m_currentFrame
        = (updateFrame env2 w f2 l2).m_currentFrame := by
    intro v hv ha
    rw [updateFrame_currentFrame env2 v f2 l2 hv, updateFrame_currentFrame env2 w f2 l2 hp]
    simp only [desiredSize, ha]
  refine ⟨hgen _ ?_ (updateFrame_imageArea env1 w f1 l1), hgen⟩
  rw [(updateFrame_isPaused_stream env1 w f1 l1).1]
  exact hp

/-- Witness of C7: two frames delivered in a row to the live sample widget. -/
theorem C7_witness :
    Sample.live.m_isPaused = false
    ∧ (updateFrame Sample.env
        (updateFrame Sample.env Sample.live Sample.frame [Sample.img100x75])
        Sample.frameB [Sample.img50x50]).m_currentFrame
      = (updateFrame Sample.env Sample.live Sample.frameB [Sample.img50x50]).m_currentFrame :=
  ⟨by decide,
    (C7_updateFrame_delivers_latest Sample.env Sample.env Sample.live Sample.frame
      Sample.frameB [Sample.img100x75] [Sample.img50x50] (by decide)).1⟩

end LiveFeedWidget

/-! ## Status placeholders -/

namespace LiveFeedWidget

theorem mjpegStateChanged_of_stream (env : Env) (w : LiveFeedWidget) (p : Nat) (state : Int)
    (hp : w.m_isPaused = false) (hs : w.m_stream = some p) :
    mjpegStateChanged env w state =
      if state = -3 then
        some (((w.setToolTip "").setStatusMessage "Stream Error").setToolTip
          (env.stream p).errorMessage)
      else if state = -2 then some ((w.setToolTip "").setStatusMessage "Server\nOffline")
      else if state = -1 then some ((w.setToolTip "").setStatusMessage "Disconnected")
      else if state = 0 then some ((w.setToolTip "").setStatusMessage "Connecting...")
      else if state = 1 then some ((w.setToolTip "").setStatusMessage "Buffering...")
      else some (w.setToolTip "").clearStatusMessage := by
  simp [mjpegStateChanged, hp, hs, MJpegStream.stateValue, State.toInt]

/-- C8. For an unpaused widget attached to a stream (the precondition asserted by
`mjpegStateChanged`), the states `Error`, `StreamOffline` and `NotConnected` each set a
non-empty status placeholder; these placeholders differ from each other and from those set
for `Connecting` and `Streaming`; and the `Paused` state clears the status message and
leaves the current frame, so that the last frame is shown. -/
theorem C8_mjpegStateChanged_placeholders (env : Env) (w : LiveFeedWidget) (p : Nat)
    (hp : w.m_isPaused = false) (hs : w.m_stream = some p) :
    statusAfter env w State.Error = some "Stream Error"
    ∧ statusAfter env w State.StreamOffline = some "Server\nOffline"
    ∧ statusAfter env w State.NotConnected = some "Disconnected"
    ∧ statusAfter env w State.Connecting = some "Connecting..."
    ∧ statusAfter env w State.Streaming = some "Buffering..."
    ∧ (∀ s ∈ [State.Error, State.StreamOffline, State.NotConnected],
        ∃ msg, statusAfter env w s = some msg ∧ msg ≠ "")
    ∧ (∀ s ∈ [State.Error, State.StreamOffline, State.NotConnected],
        ∀ t ∈ [State.Error, State.StreamOffline, State.NotConnected, State.Connecting,
          State.Streaming],
        s ≠ t → statusAfter env w s ≠ statusAfter env w t)
    ∧ (∃ w2, mjpegStateChanged env w (MJpegStream.stateValue State.Paused) = some w2
        ∧ w2.m_statusMsg = "" ∧ w2.m_currentFrame = w.m_currentFrame) := by
  have hE : statusAfter env w State.Error = some "Stream Error" := by
    simp [statusAfter, mjpegStateChanged_of_stream env w p _ hp hs, MJpegStream.stateValue,
      State.toInt, setStatusMessage, setToolTip]
  have hO : statusAfter env w State.StreamOffline = some "Server\nOffline" := by
    simp [statusAfter, mjpegStateChanged_of_stream env w p _ hp hs, MJpegStream.stateValue,
      State.toInt, setStatusMessage, setToolTip]
  have hN : statusAfter env w State.NotConnected = some "Disconnected" := by
    simp [statusAfter, mjpegStateChanged_of_stream env w p _ hp hs, MJpegStream.stateValue,
      State.toInt, setStatusMessage, setToolTip]
  have hC : statusAfter env w State.Connecting = some "Connecting..." := by
    simp [statusAfter, mjpegStateChanged_of_stream env w p _ hp hs, MJpegStream.stateValue,
      State.toInt, setStatusMessage, setToolTip]
  have hS : statusAfter env w State.Streaming = some "Buffering..." := by
    simp [statusAfter, mjpegStateChanged_of_stream env w p _ hp hs, MJpegStream.stateValue,
      State.toInt, setStatusMessage, setToolTip]
  refine ⟨hE, hO, hN, hC, hS, ?_, ?_, ?_⟩
  · intro s hmem
    simp only [List.mem_cons, List.mem_singleton, List.not_mem_nil, or_false] at hmem
    rcases hmem with rfl | rfl | rfl
    · exact ⟨_, hE, by decide⟩
    · exact ⟨_, hO, by decide⟩
    · exact ⟨_, hN, by decide⟩
  · intro s hmem t hmem2 hne
    simp only [List.mem_cons, List.mem_singleton, List.not_mem_nil, or_false] at hmem hmem2
    rcases hmem with rfl | rfl | rfl <;> rcases hmem2 with rfl | rfl | rfl | rfl | rfl <;>
      first
        | exact absurd rfl hne
        | (simp only [hE, hO, hN, hC, hS]; decide)
  · refine ⟨(w.setToolTip "").clearStatusMessage, ?_, rfl, rfl⟩
    simp [mjpegStateChanged_of_stream env w p _ hp hs, MJpegStream.stateValue, State.toInt]

/-- Witness of C8: the live sample widget, attached to the stream at address 7. -/
theorem C8_witness :
    Sample.live.m_isPaused = false ∧ Sample.live.m_stream = some 7
    ∧ statusAfter Sample.env Sample.live State.Error = some "Stream Error"
    ∧ statusAfter Sample.env Sample.live State.StreamOffline = some "Server\nOffline"
    ∧ statusAfter Sample.env Sample.live State.NotConnected = some "Disconnected" :=
  ⟨by decide, by decide,
    (C8_mjpegStateChanged_placeholders Sample.env Sample.live 7 (by decide) (by decide)).1,
    (C8_mjpegStateChanged_placeholders Sample.env Sample.live 7 (by decide) (by decide)).2.1,
    (C8_mjpegStateChanged_placeholders Sample.env Sample.live 7 (by decide)
      (by decide)).2.2.1⟩

end LiveFeedWidget

/-! ## `LiveStream::State` -/

/-- C9. `LiveStream::State` has exactly six pairwise-distinct values, `Error` (-3),
`StreamOffline` (-2), `NotConnected` (-1), `Connecting` (0), `Streaming` (1) and
`Paused` (2), and `isPaused()` returns true exactly when `state()` is `Paused`. -/
theorem C9_state_values_and_isPaused :
    State.all.length = 6
    ∧ (∀ s : State, s ∈ State.all)
    ∧ State.all.map State.toInt = [-3, -2, -1, 0, 1, 2]
    ∧ (State.all.map State.toInt).Nodup
    ∧ Function.Injective State.toInt
    ∧ (∀ ls : LiveStream, ls.isPaused = true ↔ ls.state = State.Paused) := by
  have hinj : Function.Injective State.toInt := by
    intro a b h
    cases a <;> cases b <;> first | rfl | (exact absurd h (by decide))
  refine ⟨rfl, ?_, by decide, by decide, hinj, ?_⟩
  · intro s
    cases s <;> decide
  · intro ls
    unfold LiveStream.isPaused
    rw [decide_eq_true_iff]
    exact ⟨fun h => hinj h, fun h => by rw [h]⟩

/-! ## `EventVideoPlayer::durationChanged` -/

namespace EventVideoPlayer

theorem setMaximum_maximum (s : QSlider) (m : Int) : (s.setMaximum m).maximum = m := by
  unfold QSlider.setMaximum QSlider.setRange
  simp only []
  split <;> simp [QSlider.setValue]

theorem showPosition_maximum (b : Backend) (p : EventVideoPlayer) :
    (showPosition b p).m_seekSlider.maximum = p.m_seekSlider.maximum := by
  simp [showPosition, QSlider.setValue]

/-- C10, the code at the failing input. A duration of 2147483648000000 ns is 2147483648 ms;
`durationChanged` returns (a call depth of two suffices, and any larger bound gives the same
result) and leaves the seek slider with the maximum -2147483648, the value chopped to a
32-bit `int`, whatever the backend and the earlier state of the player. -/
theorem C10_durationChanged_chops_to_int (b : Backend) (p : EventVideoPlayer) :
    Int.tdiv 2147483648000000 1000000 = 2147483648
    ∧ ∃ q, (∀ n : Nat, durationChanged b (n + 2) p 2147483648000000 = some q)
      ∧ q.m_seekSlider.maximum = -2147483648
      ∧ q.m_seekSlider.maximum ≠ Int.tdiv 2147483648000000 1000000 := by
  refine ⟨by decide, ?_⟩
  have hd : toInt32 (Int.tdiv 2147483648000000 1000000) = -2147483648 := by decide
  have hne : ((2147483648000000 : Int) = -1) = False := by simp
  refine ⟨showPosition b
      { p with m_seekSlider := p.m_seekSlider.setMaximum (-2147483648) }, ?_, ?_, ?_⟩
  · intro n
    simp only [durationChanged, updatePosition, hne, if_false, hd, setMaximum_maximum]
    simp
  · rw [showPosition_maximum]
    exact setMaximum_maximum _ _
  · rw [showPosition_maximum, setMaximum_maximum]
    decide

end EventVideoPlayer

/-! ## `LiveFeedWidget::setPaused` -/

namespace LiveFeedWidget

theorem setPaused_flag (env : Env) (w : LiveFeedWidget) (paused : Bool) :
    (setPaused env w paused).m_isPaused
      = if w.m_camera.isValid = true then (paused && !w.m_isPaused) else w.m_isPaused := by
  unfold setPaused
  by_cases hc : w.m_camera.isValid = true
  · simp only [hc, Bool.not_true, Bool.false_eq_true, if_false, if_true]
    cases hb : (paused && !w.m_isPaused)
    · simp only [Bool.false_eq_true, if_false]
      rw [setStream_isPaused]
    · simp only [if_true]
      rw [setStream_isPaused]
  · simp [hc]

/-- C13, the code at the failing input. The paused sample widget has a camera; calling
`setPaused(true)` on it takes the `else` branch, clears the flag and attaches the stream
again: the widget ends up not paused. (For the other three combinations of the flag and
the argument the flag ends equal to the argument.) -/
theorem C13_setPaused_true_on_paused_widget_resumes :
    Sample.paused.m_camera.isValid = true
    ∧ Sample.paused.m_isPaused = true
    ∧ (setPaused Sample.env Sample.paused true).m_isPaused = false
    ∧ (setPaused Sample.env Sample.paused true).m_stream = some 7
    ∧ (∀ (env : Env) (w : LiveFeedWidget) (p : Bool), w.m_camera.isValid = true →
        (setPaused env w p).m_isPaused = (p && !w.m_isPaused)) := by
  refine ⟨by decide, by decide, by decide, by decide, ?_⟩
  intro env w p hc
  rw [setPaused_flag, if_pos hc]

end LiveFeedWidget

/-! ## `EventVideoPlayer::seek` -/

namespace EventVideoPlayer

theorem toInt32_of_range (x : Int) (h1 : -2147483648 ≤ x) (h2 : x < 2147483648) :
    toInt32 x = x := by
  unfold toInt32
  omega

theorem toInt64_of_range (x : Int) (h1 : -9223372036854775808 ≤ x)
    (h2 : x < 9223372036854775808) : toInt64 x = x := by
  unfold toInt64
  omega

/-- C17. `seek` converts milliseconds to nanoseconds in wide arithmetic: for every 32-bit
`position` the backend is asked to seek to exactly `position * 1000000`, a value within
the 64-bit range; and for every duration `d` whose whole number of milliseconds
`d / 1000000` is at least 0 and below 2^31, seeking to that slider position (which is also
what C++ division yields) targets a time `t` with `d - 1000000 < t ≤ d`. -/
theorem C17_seek_is_exact (p : EventVideoPlayer) (position d : Int)
    (hlo : -2147483648 ≤ position) (hhi : position < 2147483648)
    (hd0 : 0 ≤ d / 1000000) (hd1 : d / 1000000 < 2147483648) :
    (seek p position).seeks = p.seeks ++ [position * 1000000]
    ∧ -9223372036854775808 ≤ position * 1000000
    ∧ position * 1000000 < 9223372036854775808
    ∧ Int.tdiv d 1000000 = d / 1000000
    ∧ ∃ t, (seek p (Int.tdiv d 1000000)).seeks = p.seeks ++ [t]
        ∧ d - 1000000 < t ∧ t ≤ d := by
  have hexact : ∀ q : Int, -2147483648 ≤ q → q < 2147483648 →
      (seek p q).seeks = p.seeks ++ [q * 1000000] := by
    intro q h1 h2
    unfold seek
    simp only []
    rw [toInt32_of_range q h1 h2, toInt64_of_range _ (by omega) (by omega)]
  have hdnn : 0 ≤ d := by
    by_contra hneg
    have : d / 1000000 < 0 := Int.ediv_neg' (by omega) (by norm_num)
    omega
  have htd : Int.tdiv d 1000000 = d / 1000000 :=
    Int.tdiv_eq_ediv hdnn (by norm_num)
  refine ⟨hexact position hlo hhi, by omega, by omega, htd, d / 1000000 * 1000000, ?_, ?_, ?_⟩
  · rw [htd]
    exact hexact _ (by omega) hd1
  · omega
  · omega

/-- Witness of C17: position 1500 ms, and a duration of 2999999999 ns (2999 ms). -/
theorem C17_witness :
    (seek { m_seekSlider := { minimum := 0, maximum := 99, value := 0, enabled := false },
            m_posText := none, seeks := [] } 1500).seeks = [] ++ [1500 * 1000000] :=
  (C17_seek_is_exact
    { m_seekSlider := { minimum := 0, maximum := 99, value := 0, enabled := false },
      m_posText := none, seeks := [] } 1500 2999999999
    (by decide) (by decide) (by decide) (by decide)).1

end EventVideoPlayer

/-! ## `DVRServerRepository` -/

namespace DVRServerRepository

/-- The invariant behind fresh ids: no server present and no id handed out earlier exceeds
`m_maxServerId`. -/
theorem loadGroups_inv (settings : ServerSettings) (groups : List String)
    (repo : DVRServerRepository)
    (hs : ∀ s ∈ repo.m_servers, s.id ≤ repo.m_maxServerId)
    (hc : ∀ i ∈ repo.created, i ≤ repo.m_maxServerId) :
    (∀ s ∈ (loadGroups settings groups repo).m_servers,
        s.id ≤ (loadGroups settings groups repo).m_maxServerId)
    ∧ (∀ i ∈ (loadGroups settings groups repo).created,
        i ≤ (loadGroups settings groups repo).m_maxServerId) := by
  induction groups generalizing repo with
  | nil => exact ⟨hs, hc⟩
  | cons group groups ih =>
    unfold loadGroups
    cases hu : settings.toUInt group with
    | none => exact ih repo hs hc
    | some u =>
      simp only []
      cases hr : settings.readServerWithId (toInt32 u) with
      | none => exact ih repo hs hc
      | some server =>
        simp only []
        have hid : server.id = toInt32 u := by
          unfold ServerSettings.readServerWithId at hr
          cases hn : settings.readServer (toInt32 u) with
          | none => simp [hn] at hr
          | some name =>
            simp [hn] at hr
            rw [← hr]
        apply ih
        · intro s hmem
          simp only [List.mem_append, List.mem_singleton] at hmem
          rcases hmem with hmem | rfl
          · exact le_trans (hs s hmem) (le_max_left _ _)
          · rw [hid]; exact le_max_right _ _
        · intro i hmem
          exact le_trans (hc i hmem) (le_max_left _ _)

theorem repository_invariant (repo : DVRServerRepository) (hr : Reachable repo) :
    (∀ s ∈ repo.m_servers, s.id ≤ repo.m_maxServerId)
    ∧ (∀ i ∈ repo.created, i ≤ repo.m_maxServerId) := by
  induction hr with
  | construct => exact ⟨fun s h => (by cases h), fun i h => (by cases h)⟩
  | loadServers settings _ hload ih =>
    unfold DVRServerRepository.loadServers at hload
    split at hload
    · cases hload
      exact loadGroups_inv settings _ _ ih.1 ih.2
    · cases hload
  | createServer name _ hcreate ih =>
    unfold DVRServerRepository.createServer at hcreate
    split at hcreate
    · cases hcreate
    · simp only [Option.some.injEq, Prod.mk.injEq] at hcreate
      obtain ⟨hrepo, -⟩ := hcreate
      subst hrepo
      constructor
      · intro s hmem
        simp only [List.mem_append, List.mem_singleton] at hmem
        rcases hmem with hmem | rfl
        · have := ih.1 s hmem
          simp only []
          omega
        · exact le_refl _
      · intro i hmem
        simp only [List.mem_append, List.mem_singleton] at hmem
        rcases hmem with hmem | rfl
        · have := ih.2 i hmem
          simp only []
          omega
        · exact le_refl _
  | onServerRemoved server _ ih =>
    constructor
    · intro s hmem
      exact ih.1 s (List.mem_of_mem_erase hmem)
    · exact ih.2

/-- C15. Server ids are fresh: in every reachable repository state `m_maxServerId` is at
least the id of every server present (and of every id `createServer` returned earlier);
hence, while `m_maxServerId` is below the largest `int`, `createServer` returns a server
whose id is `m_maxServerId + 1`, strictly greater than the id of every server present and
than every id returned earlier, also of servers removed since; and the first id created in
the new, empty repository is 0. -/
theorem C15_created_server_ids_are_fresh (repo : DVRServerRepository) (name : String)
    (hr : Reachable repo) :
    (∀ s ∈ repo.m_servers, s.id ≤ repo.m_maxServerId)
    ∧ (∀ i ∈ repo.created, i ≤ repo.m_maxServerId)
    ∧ (repo.m_maxServerId < 2147483647 →
        ∃ repo2 server, repo.createServer name = some (repo2, server)
          ∧ server.id = repo.m_maxServerId + 1
          ∧ server ∈ repo2.m_servers
          ∧ (∀ s ∈ repo.m_servers, s.id < server.id)
          ∧ (∀ i ∈ repo.created, i < server.id))
    ∧ (∃ repo2 server, construct.createServer name = some (repo2, server)
          ∧ server.id = 0) := by
  have hinv := repository_invariant repo hr
  refine ⟨hinv.1, hinv.2, ?_, ?_⟩
  · intro hlt
    have hno : ¬ (repo.m_maxServerId + 1 > 2147483647) := by omega
    refine ⟨{ m_servers := repo.m_servers ++ [{ id := repo.m_maxServerId + 1,
                                                  displayName := name }],
              m_maxServerId := repo.m_maxServerId + 1,
              created := repo.created ++ [repo.m_maxServerId + 1] },
      { id := repo.m_maxServerId + 1, displayName := name },
      by simp only [createServer, hno, if_false], rfl, by simp, ?_, ?_⟩
    · intro s hmem
      have := hinv.1 s hmem
      simp only []
      omega
    · intro i hmem
      have := hinv.2 i hmem
      simp only []
      omega
  · exact ⟨{ m_servers := [{ id := 0, displayName := name }], m_maxServerId := 0,
             created := [0] },
      { id := 0, displayName := name }, by simp [createServer, construct], rfl⟩

theorem sample_repo_reachable : Reachable Sample.repo := by
  have e1 : construct.loadServers Sample.settings
      = some { m_servers := [{ id := 5, displayName := "garage" }], m_maxServerId := 5,
               created := [] } := by decide
  have e2 : createServer { m_servers := [{ id := 5, displayName := "garage" }],
                           m_maxServerId := 5, created := [] } "yard"
      = some ({ m_servers := [{ id := 5, displayName := "garage" },
                              { id := 6, displayName := "yard" }],
                m_maxServerId := 6, created := [6] },
              { id := 6, displayName := "yard" }) := by decide
  have e3 : onServerRemoved
      { m_servers := [{ id := 5, displayName := "garage" }, { id := 6, displayName := "yard" }],
        m_maxServerId := 6, created := [6] } { id := 6, displayName := "yard" }
      = Sample.repo := by decide
  exact e3 ▸ Reachable.onServerRemoved _
    (Reachable.createServer "yard" (Reachable.loadServers Sample.settings Reachable.construct e1) e2)

/-- Witness of C15: after loading server 5, creating server 6 and removing it again, the
next server created gets id 7. -/
theorem C15_witness :
    Reachable Sample.repo
    ∧ Sample.repo.m_maxServerId < 2147483647
    ∧ ∃ repo2 server, Sample.repo.createServer "door" = some (repo2, server)
        ∧ server.id = Sample.repo.m_maxServerId + 1
        ∧ server ∈ repo2.m_servers
        ∧ (∀ s ∈ Sample.repo.m_servers, s.id < server.id)
        ∧ (∀ i ∈ Sample.repo.created, i < server.id) :=
  ⟨sample_repo_reachable, by decide,
    (C15_created_server_ids_are_fresh Sample.repo "door" sample_repo_reachable).2.2.1
      (by decide)⟩

end DVRServerRepository

/-! ## `CameraAreaWidget::setGridSize` -/

namespace CameraAreaWidget

theorem atInt_natCast {α : Type} (l : List α) (k : Nat) : atInt l (k : Int) = l[k]? := by
  unfold atInt
  have h : ¬ ((k : Int) < 0) := by omega
  simp [h]

theorem takeAt_natCast {α : Type} (l : List α) (k : Nat) (hk : k < l.length) :
    takeAt l (k : Int) = some (l.eraseIdx k) := by
  unfold takeAt
  rw [atInt_natCast, List.getElem?_eq_getElem hk]
  simp

theorem rowIsEmpty_eq_cameraFree (row : List LiveFeedWidget) :
    rowIsEmpty row = cameraFree row := by
  induction row with
  | nil => rfl
  | cons w rest ih =>
    unfold rowIsEmpty cameraFree
    by_cases h : w.m_camera.isValid = true
    · simp [h]
    · simp only [h, if_false, Bool.false_eq_true]
      rw [ih]
      simp [cameraFree, h]

theorem removeRow_natCast (g : CameraAreaWidget) (k : Nat) (hk : k < g.m_cameraWidgets.length) :
    removeRow g (k : Int)
      = some { g with m_cameraWidgets := g.m_cameraWidgets.eraseIdx k,
                      m_rowCount := g.m_rowCount - 1 } := by
  unfold removeRow
  rw [takeAt_natCast _ _ hk]

theorem withoutTop_nil (n : Nat) : withoutTopCameraFreeRows n [] = [] := by
  cases n <;> rfl

theorem withoutTop_sublist (n : Nat) (rows : List (List LiveFeedWidget)) :
    (withoutTopCameraFreeRows n rows).Sublist rows := by
  induction rows generalizing n with
  | nil => rw [withoutTop_nil]
  | cons row rest ih =>
    cases n with
    | zero => exact List.Sublist.refl _
    | succ n =>
      unfold withoutTopCameraFreeRows
      split
      · exact List.Sublist.cons _ (ih n)
      · exact List.Sublist.cons₂ _ (ih (n + 1))

theorem removeEmptyRows_spec (suf : List (List LiveFeedWidget)) :
    ∀ (fuel : Nat) (g : CameraAreaWidget) (pre : List (List LiveFeedWidget)) (n : Nat),
      g.m_cameraWidgets = pre ++ suf →
      (g.m_cameraWidgets.length : Int) = g.m_rowCount →
      suf.length < fuel →
      ∃ (g2 : CameraAreaWidget) (m : Nat),
        removeEmptyRows fuel g (pre.length : Int) ((n : Int) + 1) = some (g2, (m : Int))
        ∧ g2.m_cameraWidgets = pre ++ withoutTopCameraFreeRows (n + 1) suf
        ∧ g2.m_columnCount = g.m_columnCount
        ∧ g2.m_dragWidgets = g.m_dragWidgets
        ∧ (g2.m_cameraWidgets.length : Int) = g2.m_rowCount
        ∧ (g2.m_cameraWidgets.length : Int) - m = (g.m_cameraWidgets.length : Int) - (n + 1) := by
  induction suf with
  | nil =>
    intro fuel g pre n hrows hlen hfuel
    obtain ⟨f, rfl⟩ : ∃ f, fuel = f + 1 := ⟨fuel - 1, by simp at hfuel; omega⟩
    refine ⟨g, n + 1, ?_, ?_, rfl, rfl, hlen, ?_⟩
    · unfold removeEmptyRows
      have hnot : ¬ ((pre.length : Int) < g.m_rowCount) := by
        rw [← hlen, hrows]; simp
      simp [hnot]
    · rw [withoutTop_nil]; exact hrows
    · push_cast; ring
  | cons row rest ih =>
    intro fuel g pre n hrows hlen hfuel
    obtain ⟨f, rfl⟩ : ∃ f, fuel = f + 1 := ⟨fuel - 1, by simp at hfuel; omega⟩
    have hf : rest.length < f := by simp at hfuel; omega
    have hlt : (pre.length : Int) < g.m_rowCount := by
      rw [← hlen, hrows]; simp
    have hat : atInt g.m_cameraWidgets (pre.length : Int) = some row := by
      rw [atInt_natCast, hrows, List.getElem?_append_right (le_refl _)]
      simp
    have hk : pre.length < g.m_cameraWidgets.length := by rw [hrows]; simp
    unfold removeEmptyRows
    simp only [hlt, if_true, hat]
    by_cases he : rowIsEmpty row = true
    · simp only [he, if_true]
      rw [removeRow_natCast g _ hk]
      simp only []
      have herase : g.m_cameraWidgets.eraseIdx pre.length = pre ++ rest := by
        rw [hrows, List.eraseIdx_append_of_length_le (le_refl _)]
        simp
      have hcf : cameraFree row = true := by rw [← rowIsEmpty_eq_cameraFree]; exact he
      cases n with
      | zero =>
        refine ⟨{ g with m_cameraWidgets := g.m_cameraWidgets.eraseIdx pre.length,
                         m_rowCount := g.m_rowCount - 1 }, 0, by simp, ?_, rfl, rfl, ?_, ?_⟩
        · simp only [herase, withoutTopCameraFreeRows, hcf, if_true]
        · simp only [herase]
          rw [← hlen, hrows]
          simp only [List.length_append, List.length_cons]
          push_cast; ring
        · simp only [herase]
          rw [hrows]
          simp only [List.length_append, List.length_cons]
          push_cast; ring
      | succ n =>
        have hne : ¬ ((((n + 1 : Nat) : Int) + 1 - 1) = 0) := by push_cast; omega
        simp only [hne, if_false]
        have hidx : ((pre.length : Int) - 1 + 1) = (pre.length : Int) := by ring
        have hrem : (((n + 1 : Nat) : Int) + 1 - 1) = (n : Int) + 1 := by push_cast; ring
        rw [hidx, hrem]
        obtain ⟨g2, m, hrun, hrows2, hcol, hdrag, hlen2, hcount⟩ :=
          ih f { g with m_cameraWidgets := g.m_cameraWidgets.eraseIdx pre.length,
                        m_rowCount := g.m_rowCount - 1 } pre n herase
            (by
              simp only [herase]
              rw [← hlen, hrows]
              simp only [List.length_append, List.length_cons]
              push_cast; ring) hf
        refine ⟨g2, m, hrun, ?_, hcol, hdrag, hlen2, ?_⟩
        · rw [hrows2]
          simp only [withoutTopCameraFreeRows, hcf, if_true]
        · rw [hcount]
          simp only [herase]
          rw [hrows]
          simp only [List.length_append, List.length_cons]
          push_cast; ring
    · simp only [he, if_false, Bool.false_eq_true]
      have hcf : ¬ (cameraFree row = true) := by rw [← rowIsEmpty_eq_cameraFree]; exact he
      have hrows1 : g.m_cameraWidgets = (pre ++ [row]) ++ rest := by
        rw [hrows]; simp
      obtain ⟨g2, m, hrun, hrows2, hcol, hdrag, hlen2, hcount⟩ :=
        ih f g (pre ++ [row]) n hrows1 hlen hf
      have hidx : ((pre ++ [row]).length : Int) = (pre.length : Int) + 1 := by simp
      rw [hidx] at hrun
      refine ⟨g2, m, hrun, ?_, hcol, hdrag, hlen2, hcount⟩
      rw [hrows2]
      simp [withoutTopCameraFreeRows, hcf]

end CameraAreaWidget

namespace CameraAreaWidget

theorem eraseIdx_last {α : Type} (l : List α) (h : 0 < l.length) :
    l.eraseIdx (l.length - 1) = l.take (l.length - 1) := by
  rw [List.eraseIdx_eq_take_drop_succ]
  have : l.length - 1 + 1 = l.length := by omega
  rw [this, List.drop_length]
  simp

theorem removeBottomRows_spec (m : Nat) :
    ∀ (fuel : Nat) (g : CameraAreaWidget),
      (g.m_cameraWidgets.length : Int) = g.m_rowCount →
      m ≤ g.m_cameraWidgets.length →
      m < fuel →
      ∃ g2 : CameraAreaWidget,
        removeBottomRows fuel g ((g.m_cameraWidgets.length : Int) - 1) (m : Int) = some (g2, 0)
        ∧ g2.m_cameraWidgets = g.m_cameraWidgets.take (g.m_cameraWidgets.length - m)
        ∧ g2.m_columnCount = g.m_columnCount
        ∧ g2.m_dragWidgets = g.m_dragWidgets
        ∧ (g2.m_cameraWidgets.length : Int) = g2.m_rowCount := by
  induction m with
  | zero =>
    intro fuel g hlen _ hfuel
    obtain ⟨f, rfl⟩ : ∃ f, fuel = f + 1 := ⟨fuel - 1, by omega⟩
    refine ⟨g, ?_, by simp, rfl, rfl, hlen⟩
    unfold removeBottomRows
    simp
  | succ m ih =>
    intro fuel g hlen hle hfuel
    obtain ⟨f, rfl⟩ : ∃ f, fuel = f + 1 := ⟨fuel - 1, by omega⟩
    have hpos : 0 < g.m_cameraWidgets.length := by omega
    have hr : ((g.m_cameraWidgets.length : Int) - 1) = ((g.m_cameraWidgets.length - 1 : Nat) : Int) := by
      omega
    have hcond : (((m + 1 : Nat) : Int) ≠ 0 ∧ (g.m_cameraWidgets.length : Int) - 1 ≥ 0) := by
      constructor <;> omega
    unfold removeBottomRows
    simp only [hcond, and_self, if_true]
    rw [hr, removeRow_natCast g _ (by omega)]
    simp only []
    rw [eraseIdx_last _ hpos]
    have hlen1 : (g.m_cameraWidgets.take (g.m_cameraWidgets.length - 1)).length
        = g.m_cameraWidgets.length - 1 := by
      simp
    obtain ⟨g2, hrun, hrows2, hcol, hdrag, hlen2⟩ :=
      ih f { g with m_cameraWidgets := g.m_cameraWidgets.take (g.m_cameraWidgets.length - 1),
                    m_rowCount := g.m_rowCount - 1 }
        (by simp only [hlen1]; omega) (by simp only [hlen1]; omega) (by omega)
    simp only [hlen1] at hrun hrows2
    have e1 : (((g.m_cameraWidgets.length - 1 : Nat) : Int) - 1)
        = (((g.m_cameraWidgets.length - 1 : Nat) : Int) - 1) := rfl
    have e2 : (((m + 1 : Nat) : Int) - 1) = (m : Int) := by push_cast; ring
    rw [e2]
    refine ⟨g2, hrun, ?_, hcol, hdrag, hlen2⟩
    rw [hrows2, List.take_take]
    congr 1
    omega

theorem mem_of_mem_take {α : Type} {l : List α} {k : Nat} {x : α} (h : x ∈ l.take k) :
    x ∈ l :=
  (List.take_sublist k l).subset h

theorem shrinkRows_spec (fuel : Nat) (g : CameraAreaWidget) (rows : Int)
    (hwf : g.WellFormed) (hrows : 0 ≤ rows) (hfuel : g.m_cameraWidgets.length < fuel) :
    ∃ g2 : CameraAreaWidget, shrinkRows fuel g rows = some g2
      ∧ g2.WellFormed
      ∧ g2.m_rowCount = min g.m_rowCount rows
      ∧ g2.m_columnCount = g.m_columnCount
      ∧ g2.m_dragWidgets = g.m_dragWidgets
      ∧ g2.m_cameraWidgets =
          if g.m_rowCount > rows then
            (withoutTopCameraFreeRows (g.m_rowCount - rows).toNat g.m_cameraWidgets).take
              rows.toNat
          else g.m_cameraWidgets := by
  unfold shrinkRows
  by_cases hgt : g.m_rowCount > rows
  · simp only [hgt, if_true]
    obtain ⟨n, hn⟩ : ∃ n : Nat, g.m_rowCount - rows = (n : Int) + 1 :=
      ⟨(g.m_rowCount - rows - 1).toNat, by omega⟩
    obtain ⟨g1, m, hrun1, hrows1, hcol1, hdrag1, hlen1, hcount1⟩ :=
      removeEmptyRows_spec g.m_cameraWidgets fuel g [] n (by simp) hwf.1 hfuel
    simp only [List.length_nil, Nat.cast_zero] at hrun1
    rw [hn, hrun1]
    simp only []
    have hsub : (withoutTopCameraFreeRows (n + 1) g.m_cameraWidgets).Sublist g.m_cameraWidgets :=
      withoutTop_sublist _ _
    have hlen1le : g1.m_cameraWidgets.length ≤ g.m_cameraWidgets.length := by
      rw [hrows1]; simpa using hsub.length_le
    have hm : m ≤ g1.m_cameraWidgets.length := by
      have := hwf.1
      omega
    obtain ⟨g2, hrun2, hrows2, hcol2, hdrag2, hlen2⟩ :=
      removeBottomRows_spec m fuel g1 hlen1 hm (by omega)
    rw [hrun2]
    simp only [if_true]
    have htarget : g1.m_cameraWidgets.length - m = rows.toNat := by
      have := hwf.1
      omega
    have hrowsEq : g2.m_cameraWidgets
        = (withoutTopCameraFreeRows (n + 1) g.m_cameraWidgets).take rows.toNat := by
      rw [hrows2, htarget, hrows1]; simp
    have hlenEq : (g2.m_cameraWidgets.length : Int) = rows := by
      rw [hrows2, List.length_take]
      omega
    have htoNat : ((n : Int) + 1).toNat = n + 1 := by omega
    refine ⟨g2, rfl, ⟨hlen2, ?_⟩, ?_, by rw [hcol2, hcol1], by rw [hdrag2, hdrag1], ?_⟩
    · intro row hmem
      rw [hcol2, hcol1]
      apply hwf.2
      rw [hrowsEq] at hmem
      exact hsub.subset (mem_of_mem_take hmem)
    · rw [← hlen2, hlenEq]
      omega
    · rw [htoNat]; exact hrowsEq
  · simp only [hgt, if_false]
    refine ⟨g, rfl, hwf, ?_, rfl, rfl, rfl⟩
    omega

end CameraAreaWidget

namespace CameraAreaWidget

theorem atInt_isSome {α : Type} (l : List α) (c : Int) (h0 : 0 ≤ c) (h1 : c < (l.length : Int)) :
    ∃ x, atInt l c = some x := by
  obtain ⟨k, rfl⟩ := Int.eq_ofNat_of_zero_le h0
  have hk : k < l.length := by omega
  exact ⟨l[k], by rw [atInt_natCast, List.getElem?_eq_getElem hk]⟩

theorem takeAt_spec {α : Type} (l : List α) (c : Int) (h0 : 0 ≤ c) (h1 : c < (l.length : Int)) :
    ∃ l2, takeAt l c = some l2 ∧ (l2.length : Int) = (l.length : Int) - 1 := by
  obtain ⟨k, rfl⟩ := Int.eq_ofNat_of_zero_le h0
  have hk : k < l.length := by omega
  refine ⟨l.eraseIdx k, takeAt_natCast l k hk, ?_⟩
  rw [List.length_eraseIdx, if_pos hk]
  omega

theorem columnIsEmpty_isSome (c m : Int) (rows : List (List LiveFeedWidget))
    (hrect : ∀ row ∈ rows, (row.length : Int) = m) (h0 : 0 ≤ c) (h1 : c < m) :
    ∃ b, columnIsEmpty c rows = some b := by
  induction rows with
  | nil => exact ⟨true, rfl⟩
  | cons row rest ih =>
    have hrow : (row.length : Int) = m := hrect row (List.mem_cons_self _ _)
    obtain ⟨w, hw⟩ := atInt_isSome row c h0 (by omega)
    obtain ⟨b, hb⟩ := ih (fun r hr => hrect r (List.mem_cons_of_mem _ hr))
    unfold columnIsEmpty
    rw [hw]
    simp only []
    split
    · exact ⟨false, rfl⟩
    · exact ⟨b, hb⟩

theorem removeColumnRows_spec (c m : Int) (rows : List (List LiveFeedWidget))
    (hrect : ∀ row ∈ rows, (row.length : Int) = m) (h0 : 0 ≤ c) (h1 : c < m) :
    ∃ rows2, removeColumnRows c rows = some rows2
      ∧ rows2.length = rows.length
      ∧ ∀ row ∈ rows2, (row.length : Int) = m - 1 := by
  induction rows with
  | nil => exact ⟨[], rfl, rfl, fun _ h => by cases h⟩
  | cons row rest ih =>
    have hrow : (row.length : Int) = m := hrect row (List.mem_cons_self _ _)
    obtain ⟨row2, hrow2, hlen2⟩ := takeAt_spec row c h0 (by omega)
    obtain ⟨rest2, hrest2, hlenr, hrect2⟩ := ih (fun r hr => hrect r (List.mem_cons_of_mem _ hr))
    refine ⟨row2 :: rest2, ?_, by simp [hlenr], ?_⟩
    · unfold removeColumnRows
      rw [hrow2]
      simp only []
      rw [hrest2]
    · intro r hr
      rcases List.mem_cons.mp hr with rfl | hr
      · omega
      · exact hrect2 r hr

theorem removeColumn_spec (g : CameraAreaWidget) (c : Int) (hwf : g.WellFormed)
    (h0 : 0 ≤ c) (h1 : c < g.m_columnCount) :
    ∃ g2, removeColumn g c = some g2
      ∧ g2.WellFormed
      ∧ g2.m_columnCount = g.m_columnCount - 1
      ∧ g2.m_rowCount = g.m_rowCount
      ∧ g2.m_dragWidgets = g.m_dragWidgets := by
  obtain ⟨rows2, hrun, hlen, hrect⟩ :=
    removeColumnRows_spec c g.m_columnCount g.m_cameraWidgets hwf.2 h0 h1
  refine ⟨{ g with m_cameraWidgets := rows2, m_columnCount := g.m_columnCount - 1 }, ?_,
    ⟨?_, hrect⟩, rfl, rfl, rfl⟩
  · unfold removeColumn
    rw [hrun]
  · simp only [hlen]
    exact hwf.1

theorem removeEmptyColumns_spec (d : Nat) :
    ∀ (fuel : Nat) (g : CameraAreaWidget) (k n : Nat),
      g.WellFormed →
      g.m_columnCount - (k : Int) ≤ (d : Int) →
      d < fuel →
      ∃ (g2 : CameraAreaWidget) (m : Nat),
        removeEmptyColumns fuel g (k : Int) ((n : Int) + 1) = some (g2, (m : Int))
        ∧ g2.WellFormed
        ∧ g2.m_rowCount = g.m_rowCount
        ∧ g2.m_dragWidgets = g.m_dragWidgets
        ∧ g2.m_columnCount - m = g.m_columnCount - (n + 1)
        ∧ m ≤ n + 1 := by
  induction d with
  | zero =>
    intro fuel g k n hwf hd hfuel
    obtain ⟨f, rfl⟩ : ∃ f, fuel = f + 1 := ⟨fuel - 1, by omega⟩
    have hnot : ¬ ((k : Int) < g.m_columnCount) := by omega
    refine ⟨g, n + 1, ?_, hwf, rfl, rfl, by push_cast; ring, le_refl _⟩
    unfold removeEmptyColumns
    simp [hnot]
  | succ d ih =>
    intro fuel g k n hwf hd hfuel
    obtain ⟨f, rfl⟩ : ∃ f, fuel = f + 1 := ⟨fuel - 1, by omega⟩
    unfold removeEmptyColumns
    by_cases hlt : (k : Int) < g.m_columnCount
    · simp only [hlt, if_true]
      obtain ⟨b, hb⟩ := columnIsEmpty_isSome (k : Int) g.m_columnCount g.m_cameraWidgets hwf.2
        (by omega) hlt
      rw [hb]
      simp only []
      cases b with
      | true =>
        simp only [if_true]
        obtain ⟨g1, hrun1, hwf1, hcol1, hrow1, hdrag1⟩ :=
          removeColumn_spec g (k : Int) hwf (by omega) hlt
        rw [hrun1]
        simp only []
        cases n with
        | zero =>
          refine ⟨g1, 0, by simp, hwf1, hrow1, hdrag1, ?_, by omega⟩
          rw [hcol1]; push_cast; ring
        | succ n =>
          have hne : ¬ ((((n + 1 : Nat) : Int) + 1 - 1) = 0) := by push_cast; omega
          simp only [hne, if_false]
          have hidx : ((k : Int) - 1 + 1) = (k : Int) := by ring
          have hrem : (((n + 1 : Nat) : Int) + 1 - 1) = (n : Int) + 1 := by push_cast; ring
          rw [hidx, hrem]
          obtain ⟨g2, m, hrun2, hwf2, hrow2, hdrag2, hcount2, hmle⟩ :=
            ih f g1 k n hwf1 (by rw [hcol1]; omega) (by omega)
          refine ⟨g2, m, hrun2, hwf2, by rw [hrow2, hrow1], by rw [hdrag2, hdrag1], ?_,
            by omega⟩
          rw [hcount2, hcol1]; push_cast; ring
      | false =>
        simp only [Bool.false_eq_true, if_false]
        obtain ⟨g2, m, hrun2, hwf2, hrow2, hdrag2, hcount2, hmle⟩ :=
          ih f g (k + 1) n hwf (by push_cast; omega) (by omega)
        have hidx : (((k + 1 : Nat) : Int)) = (k : Int) + 1 := by push_cast; ring
        rw [hidx] at hrun2
        exact ⟨g2, m, hrun2, hwf2, hrow2, hdrag2, hcount2, hmle⟩
    · simp only [hlt, if_false]
      exact ⟨g, n + 1, by simp, hwf, rfl, rfl, by push_cast; ring, le_refl _⟩

theorem removeRightColumns_spec (m : Nat) :
    ∀ (fuel : Nat) (g : CameraAreaWidget),
      g.WellFormed →
      (m : Int) ≤ g.m_columnCount →
      m < fuel →
      ∃ g2 : CameraAreaWidget,
        removeRightColumns fuel g (g.m_columnCount - 1) (m : Int) = some (g2, 0)
        ∧ g2.WellFormed
        ∧ g2.m_columnCount = g.m_columnCount - m
        ∧ g2.m_rowCount = g.m_rowCount
        ∧ g2.m_dragWidgets = g.m_dragWidgets := by
  induction m with
  | zero =>
    intro fuel g hwf _ hfuel
    obtain ⟨f, rfl⟩ : ∃ f, fuel = f + 1 := ⟨fuel - 1, by omega⟩
    refine ⟨g, ?_, hwf, by simp, rfl, rfl⟩
    unfold removeRightColumns
    simp
  | succ m ih =>
    intro fuel g hwf hle hfuel
    obtain ⟨f, rfl⟩ : ∃ f, fuel = f + 1 := ⟨fuel - 1, by omega⟩
    have hcond : (((m + 1 : Nat) : Int) ≠ 0 ∧ g.m_columnCount - 1 ≥ 0) := by
      constructor <;> omega
    unfold removeRightColumns
    simp only [hcond, and_self, if_true]
    obtain ⟨g1, hrun1, hwf1, hcol1, hrow1, hdrag1⟩ :=
      removeColumn_spec g (g.m_columnCount - 1) hwf (by omega) (by omega)
    rw [hrun1]
    simp only []
    obtain ⟨g2, hrun2, hwf2, hcol2, hrow2, hdrag2⟩ :=
      ih f g1 hwf1 (by rw [hcol1]; push_cast at hle; omega) (by omega)
    rw [hcol1] at hrun2
    have e2 : (((m + 1 : Nat) : Int) - 1) = (m : Int) := by push_cast; ring
    rw [e2]
    refine ⟨g2, hrun2, hwf2, ?_, by rw [hrow2, hrow1], by rw [hdrag2, hdrag1]⟩
    rw [hcol2, hcol1]; push_cast; ring

theorem shrinkColumns_spec (fuel : Nat) (g : CameraAreaWidget) (columns : Int)
    (hwf : g.WellFormed) (hcols : 0 ≤ columns) (hfuel : g.m_columnCount < (fuel : Int)) :
    ∃ g2 : CameraAreaWidget, shrinkColumns fuel g columns = some g2
      ∧ g2.WellFormed
      ∧ g2.m_columnCount = min g.m_columnCount columns
      ∧ g2.m_rowCount = g.m_rowCount
      ∧ g2.m_dragWidgets = g.m_dragWidgets := by
  unfold shrinkColumns
  by_cases hgt : g.m_columnCount > columns
  · simp only [hgt, if_true]
    obtain ⟨n, hn⟩ : ∃ n : Nat, g.m_columnCount - columns = (n : Int) + 1 :=
      ⟨(g.m_columnCount - columns - 1).toNat, by omega⟩
    obtain ⟨g1, m, hrun1, hwf1, hrow1, hdrag1, hcount1, hmle⟩ :=
      removeEmptyColumns_spec g.m_columnCount.toNat fuel g 0 n hwf (by omega) (by omega)
    simp only [Nat.cast_zero] at hrun1
    rw [hn, hrun1]
    simp only []
    obtain ⟨g2, hrun2, hwf2, hcol2, hrow2, hdrag2⟩ :=
      removeRightColumns_spec m fuel g1 hwf1 (by omega) (by omega)
    rw [hrun2]
    simp only [if_true]
    refine ⟨g2, rfl, hwf2, ?_, by rw [hrow2, hrow1], by rw [hdrag2, hdrag1]⟩
    rw [hcol2]
    omega
  · simp only [hgt, if_false]
    exact ⟨g, rfl, hwf, by omega, rfl, rfl⟩

end CameraAreaWidget

namespace CameraAreaWidget

theorem growColumns_spec (base : QWidget) (d : Nat) :
    ∀ (fuel : Nat) (g : CameraAreaWidget) (columns : Int),
      g.WellFormed →
      columns - g.m_columnCount ≤ (d : Int) →
      d < fuel →
      ∃ g2 : CameraAreaWidget, growColumns base fuel g columns = some g2
        ∧ g2.WellFormed
        ∧ g2.m_columnCount = max g.m_columnCount columns
        ∧ g2.m_rowCount = g.m_rowCount
        ∧ g2.m_dragWidgets = g.m_dragWidgets := by
  induction d with
  | zero =>
    intro fuel g columns hwf hd hfuel
    obtain ⟨f, rfl⟩ : ∃ f, fuel = f + 1 := ⟨fuel - 1, by omega⟩
    have hnot : ¬ (g.m_columnCount < columns) := by omega
    refine ⟨g, ?_, hwf, by omega, rfl, rfl⟩
    unfold growColumns
    simp [hnot]
  | succ d ih =>
    intro fuel g columns hwf hd hfuel
    obtain ⟨f, rfl⟩ : ∃ f, fuel = f + 1 := ⟨fuel - 1, by omega⟩
    unfold growColumns
    by_cases hlt : g.m_columnCount < columns
    · simp only [hlt, if_true]
      have hwf1 : WellFormed
          { g with m_cameraWidgets :=
                     g.m_cameraWidgets.map (fun row => row ++ [LiveFeedWidget.construct base]),
                   m_columnCount := g.m_columnCount + 1 } := by
        constructor
        · simpa using hwf.1
        · intro row hmem
          simp only [List.mem_map] at hmem
          obtain ⟨row0, hmem0, rfl⟩ := hmem
          have := hwf.2 row0 hmem0
          simp only [List.length_append, List.length_singleton]
          push_cast
          omega
      obtain ⟨g2, hrun, hwf2, hcol2, hrow2, hdrag2⟩ :=
        ih f _ columns hwf1 (by simp only []; omega) (by omega)
      refine ⟨g2, hrun, hwf2, ?_, hrow2, hdrag2⟩
      rw [hcol2]
      simp only []
      omega
    · simp only [hlt, if_false]
      exact ⟨g, rfl, hwf, by omega, rfl, rfl⟩

theorem growRows_spec (base : QWidget) (d : Nat) :
    ∀ (fuel : Nat) (g : CameraAreaWidget) (rows : Int),
      g.WellFormed →
      0 ≤ g.m_columnCount →
      rows - g.m_rowCount ≤ (d : Int) →
      d < fuel →
      ∃ g2 : CameraAreaWidget, growRows base fuel g rows = some g2
        ∧ g2.WellFormed
        ∧ g2.m_rowCount = max g.m_rowCount rows
        ∧ g2.m_columnCount = g.m_columnCount
        ∧ g2.m_dragWidgets = g.m_dragWidgets := by
  induction d with
  | zero =>
    intro fuel g rows hwf _ hd hfuel
    obtain ⟨f, rfl⟩ : ∃ f, fuel = f + 1 := ⟨fuel - 1, by omega⟩
    have hnot : ¬ (g.m_rowCount < rows) := by omega
    refine ⟨g, ?_, hwf, by omega, rfl, rfl⟩
    unfold growRows
    simp [hnot]
  | succ d ih =>
    intro fuel g rows hwf hcol hd hfuel
    obtain ⟨f, rfl⟩ : ∃ f, fuel = f + 1 := ⟨fuel - 1, by omega⟩
    unfold growRows
    by_cases hlt : g.m_rowCount < rows
    · simp only [hlt, if_true]
      have hwf1 : WellFormed
          { g with m_cameraWidgets :=
                     g.m_cameraWidgets ++
                       [List.replicate g.m_columnCount.toNat (LiveFeedWidget.construct base)],
                   m_rowCount := g.m_rowCount + 1 } := by
        constructor
        · have := hwf.1
          simp only [List.length_append, List.length_singleton]
          push_cast
          omega
        · intro row hmem
          simp only [List.mem_append, List.mem_singleton] at hmem
          rcases hmem with hmem | rfl
          · exact hwf.2 row hmem
          · simp only [List.length_replicate]
            omega
      obtain ⟨g2, hrun, hwf2, hrow2, hcol2, hdrag2⟩ :=
        ih f _ rows hwf1 hcol (by simp only []; omega) (by omega)
      refine ⟨g2, hrun, hwf2, ?_, hcol2, hdrag2⟩
      rw [hrow2]
      simp only []
      omega
    · simp only [hlt, if_false]
      exact ⟨g, rfl, hwf, by omega, rfl, rfl⟩

theorem sizeAssertionsHold_of_wellFormed (g : CameraAreaWidget) (hwf : g.WellFormed) :
    g.sizeAssertionsHold = true := by
  unfold sizeAssertionsHold
  rw [Bool.and_eq_true]
  refine ⟨decide_eq_true hwf.1, ?_⟩
  have h2 := hwf.2
  cases hrows : g.m_cameraWidgets with
  | nil => rfl
  | cons row rest =>
    exact decide_eq_true (h2 row (by rw [hrows]; exact List.mem_cons_self _ _))

theorem setGridSize_spec (fuel : Nat) (base : QWidget) (g : CameraAreaWidget)
    (rows columns : Int) (hwf : g.WellFormed)
    (hfuel : g.m_rowCount.toNat + g.m_columnCount.natAbs + rows.toNat + columns.toNat < fuel) :
    ∃ g2 : CameraAreaWidget, setGridSize fuel base g rows columns = some g2
      ∧ g2.WellFormed
      ∧ g2.m_rowCount = max 0 rows
      ∧ g2.m_columnCount = max 0 columns
      ∧ ((max 0 rows = g.m_rowCount ∧ max 0 columns = g.m_columnCount) → g2 = g)
      ∧ (max 0 columns = g.m_columnCount → g.m_rowCount > max 0 rows →
          g2.m_cameraWidgets =
            (withoutTopCameraFreeRows (g.m_rowCount - max 0 rows).toNat g.m_cameraWidgets).take
              (max 0 rows).toNat) := by
  have hlen := hwf.1
  unfold setGridSize
  simp only []
  by_cases hsame : max 0 rows = g.m_rowCount ∧ max 0 columns = g.m_columnCount
  · rw [if_pos hsame]
    refine ⟨g, rfl, hwf, hsame.1.symm, hsame.2.symm, fun _ => rfl, ?_⟩
    intro _ hgt
    omega
  · rw [if_neg hsame]
    rw [sizeAssertionsHold_of_wellFormed g hwf]
    simp only [Bool.not_true, Bool.false_eq_true, if_false]
    obtain ⟨g1, hrun1, hwf1, hrow1, hcol1, hdrag1, hrows1⟩ :=
      shrinkRows_spec fuel g (max 0 rows) hwf (by omega) (by omega)
    rw [hrun1]
    simp only []
    obtain ⟨g2, hrun2, hwf2, hcol2, hrow2, hdrag2⟩ :=
      shrinkColumns_spec fuel g1 (max 0 columns) hwf1 (by omega) (by rw [hcol1]; omega)
    rw [hrun2]
    simp only []
    obtain ⟨g3, hrun3, hwf3, hcol3, hrow3, hdrag3⟩ :=
      growColumns_spec base (max 0 columns - g2.m_columnCount).toNat fuel g2 (max 0 columns)
        hwf2 (by omega) (by rw [hcol2, hcol1]; omega)
    rw [hrun3]
    simp only []
    have hc3 : g3.m_columnCount = max 0 columns := by
      rw [hcol3, hcol2]; omega
    obtain ⟨g4, hrun4, hwf4, hrow4, hcol4, hdrag4⟩ :=
      growRows_spec base (max 0 rows - g3.m_rowCount).toNat fuel g3 (max 0 rows)
        hwf3 (by omega) (by omega) (by rw [hrow3, hrow2, hrow1]; omega)
    rw [hrun4]
    simp only []
    have hr4 : g4.m_rowCount = max 0 rows := by
      rw [hrow4, hrow3, hrow2, hrow1]; omega
    have hc4 : g4.m_columnCount = max 0 columns := by rw [hcol4, hc3]
    have hwf5 : WellFormed
        { g4 with m_rowCount := max 0 rows, m_columnCount := max 0 columns } := by
      constructor
      · simp only []; rw [← hr4]; exact hwf4.1
      · intro row hmem
        simp only []; rw [← hc4]; exact hwf4.2 row hmem
    rw [sizeAssertionsHold_of_wellFormed _ hwf5]
    simp only [Bool.not_true, Bool.false_eq_true, if_false]
    refine ⟨_, rfl, hwf5, rfl, rfl, fun h => absurd h hsame, ?_⟩
    intro hceq hgt
    simp only []
    have hg2 : g2 = g1 := by
      have h := hrun2
      unfold shrinkColumns at h
      have hno : ¬ (g1.m_columnCount > max 0 columns) := by rw [hcol1]; omega
      rw [if_neg hno] at h
      exact (Option.some.inj h).symm
    have hg3 : g3 = g2 := by
      have h := hrun3
      obtain ⟨f, hf⟩ : ∃ f, fuel = f + 1 := ⟨fuel - 1, by omega⟩
      rw [hf] at h
      unfold growColumns at h
      have hno : ¬ (g2.m_columnCount < max 0 columns) := by rw [hcol2, hcol1]; omega
      rw [if_neg hno] at h
      exact (Option.some.inj h).symm
    have hg4 : g4 = g3 := by
      have h := hrun4
      obtain ⟨f, hf⟩ : ∃ f, fuel = f + 1 := ⟨fuel - 1, by omega⟩
      rw [hf] at h
      unfold growRows at h
      have hno : ¬ (g3.m_rowCount < max 0 rows) := by rw [hrow3, hrow2, hrow1]; omega
      rw [if_neg hno] at h
      exact (Option.some.inj h).symm
    rw [hg4, hg3, hg2, hrows1, if_pos hgt]

/-- C11. On a grid whose list has `m_rowCount` rows of `m_columnCount` widgets each,
`setGridSize(rows, columns)` finishes (given enough fuel for its loops) without a failed
assertion, with `m_rowCount = max(0, rows)`, `m_columnCount = max(0, columns)` and
`m_cameraWidgets` again having exactly that many rows of exactly that many widgets. -/
theorem C11_setGridSize_establishes_dimensions (fuel : Nat) (base : QWidget)
    (g : CameraAreaWidget) (rows columns : Int) (hwf : g.WellFormed)
    (hfuel : g.m_rowCount.toNat + g.m_columnCount.natAbs + rows.toNat + columns.toNat < fuel) :
    ∃ g2 : CameraAreaWidget, setGridSize fuel base g rows columns = some g2
      ∧ g2.m_rowCount = max 0 rows
      ∧ g2.m_columnCount = max 0 columns
      ∧ (g2.m_cameraWidgets.length : Int) = max 0 rows
      ∧ (∀ row ∈ g2.m_cameraWidgets, (row.length : Int) = max 0 columns)
      ∧ g2.WellFormed := by
  obtain ⟨g2, hrun, hwf2, hrow2, hcol2, -, -⟩ :=
    setGridSize_spec fuel base g rows columns hwf hfuel
  refine ⟨g2, hrun, hrow2, hcol2, ?_, ?_, hwf2⟩
  · rw [← hrow2]; exact hwf2.1
  · intro row hmem
    rw [← hcol2]; exact hwf2.2 row hmem

/-- Witness of C11: the 2x2 sample grid resized to 1 row of 3 columns. -/
theorem C11_witness :
    Sample.grid.WellFormed
    ∧ ∃ g2 : CameraAreaWidget, setGridSize 10 Sample.base Sample.grid 1 3 = some g2
      ∧ g2.m_rowCount = max 0 1
      ∧ g2.m_columnCount = max 0 3
      ∧ (g2.m_cameraWidgets.length : Int) = max 0 1
      ∧ (∀ row ∈ g2.m_cameraWidgets, (row.length : Int) = max 0 3)
      ∧ g2.WellFormed :=
  ⟨⟨by decide, by decide⟩,
    C11_setGridSize_establishes_dimensions 10 Sample.base Sample.grid 1 3
      ⟨by decide, by decide⟩ (by decide)⟩

end CameraAreaWidget

namespace CameraAreaWidget

theorem withoutTop_length (rows : List (List LiveFeedWidget)) :
    ∀ n : Nat, (withoutTopCameraFreeRows n rows).length + min n (rows.countP cameraFree)
      = rows.length := by
  induction rows with
  | nil => intro n; rw [withoutTop_nil]; simp
  | cons row rest ih =>
    intro n
    cases n with
    | zero => simp [withoutTopCameraFreeRows]
    | succ n =>
      unfold withoutTopCameraFreeRows
      by_cases h : cameraFree row = true
      · simp only [h, if_true, List.countP_cons_of_pos]
        have := ih n
        simp only [List.length_cons]
        omega
      · simp only [h, if_false, Bool.false_eq_true]
        rw [List.countP_cons_of_neg _ _ h]
        have := ih (n + 1)
        simp only [List.length_cons]
        omega

theorem withoutTop_keeps_rows_with_cameras (rows : List (List LiveFeedWidget)) :
    ∀ n : Nat, (withoutTopCameraFreeRows n rows).filter (fun row => !cameraFree row)
      = rows.filter (fun row => !cameraFree row) := by
  induction rows with
  | nil => intro n; rw [withoutTop_nil]
  | cons row rest ih =>
    intro n
    cases n with
    | zero => rfl
    | succ n =>
      unfold withoutTopCameraFreeRows
      by_cases h : cameraFree row = true
      · simp only [h, if_true]
        rw [ih n]
        simp [h]
      · simp only [h, if_false, Bool.false_eq_true]
        simp only [List.filter_cons]
        rw [ih (n + 1)]

/-- C14. When `setGridSize` reduces the row count from `R` to `rows < R` and keeps the
column count, the rows deleted are the topmost camera-free rows, up to `R - rows` of them,
and what is still to delete after that is taken from the bottom: the new list of rows is
the old one without its topmost `R - rows` camera-free rows, cut to its first `rows` rows.
Hence, if at least `R - rows` rows are camera-free nothing is cut from the bottom, every row
holding a camera survives and the surviving rows keep their relative order. -/
theorem C14_setGridSize_removes_empty_rows_first (fuel : Nat) (base : QWidget)
    (g : CameraAreaWidget) (rows : Int) (hwf : g.WellFormed) (hrows : 0 ≤ rows)
    (hlt : rows < g.m_rowCount)
    (hfuel : g.m_rowCount.toNat + g.m_columnCount.natAbs + rows.toNat
      + g.m_columnCount.toNat < fuel) :
    ∃ g2 : CameraAreaWidget, setGridSize fuel base g rows g.m_columnCount = some g2
      ∧ g2.m_rowCount = rows
      ∧ g2.m_columnCount = g.m_columnCount
      ∧ g2.m_cameraWidgets =
          (withoutTopCameraFreeRows (g.m_rowCount - rows).toNat g.m_cameraWidgets).take
            rows.toNat
      ∧ (withoutTopCameraFreeRows (g.m_rowCount - rows).toNat g.m_cameraWidgets).length
            + min (g.m_rowCount - rows).toNat (g.m_cameraWidgets.countP cameraFree)
          = g.m_cameraWidgets.length
      ∧ ((g.m_rowCount - rows).toNat ≤ g.m_cameraWidgets.countP cameraFree →
          g2.m_cameraWidgets
              = withoutTopCameraFreeRows (g.m_rowCount - rows).toNat g.m_cameraWidgets
            ∧ g2.m_cameraWidgets.Sublist g.m_cameraWidgets
            ∧ g2.m_cameraWidgets.filter (fun row => !cameraFree row)
                = g.m_cameraWidgets.filter (fun row => !cameraFree row)) := by
  have hlen := hwf.1
  have hcolnn : 0 ≤ g.m_columnCount := by
    cases hr : g.m_cameraWidgets with
    | nil => rw [hr] at hlen; simp at hlen; omega
    | cons row rest =>
      have := hwf.2 row (by rw [hr]; exact List.mem_cons_self _ _)
      omega
  have hmr : max 0 rows = rows := by omega
  have hmc : max 0 g.m_columnCount = g.m_columnCount := by omega
  obtain ⟨g2, hrun, hwf2, hrow2, hcol2, -, hshape⟩ :=
    setGridSize_spec fuel base g rows g.m_columnCount hwf hfuel
  rw [hmr] at hrow2 hshape
  rw [hmc] at hcol2
  have hrowsEq := hshape hmc (by omega)
  have hcount := withoutTop_length g.m_cameraWidgets (g.m_rowCount - rows).toNat
  refine ⟨g2, hrun, hrow2, hcol2, hrowsEq, hcount, ?_⟩
  intro henough
  have hfull : g2.m_cameraWidgets
      = withoutTopCameraFreeRows (g.m_rowCount - rows).toNat g.m_cameraWidgets := by
    rw [hrowsEq]
    apply List.take_of_length_le
    omega
  refine ⟨hfull, ?_, ?_⟩
  · rw [hfull]; exact withoutTop_sublist _ _
  · rw [hfull]; exact withoutTop_keeps_rows_with_cameras _ _

/-- Witness of C14: the sample grid with its camera in the bottom row, reduced from two
rows to one, loses its camera-free top row and keeps the row with the camera. -/
theorem C14_witness :
    Sample.gridB.WellFormed ∧ (0 : Int) ≤ 1 ∧ (1 : Int) < Sample.gridB.m_rowCount
    ∧ ∃ g2 : CameraAreaWidget,
        setGridSize 10 Sample.base Sample.gridB 1 Sample.gridB.m_columnCount = some g2
        ∧ g2.m_cameraWidgets = [[Sample.live, Sample.fresh]] := by
  obtain ⟨g2, hrun, -, -, hrows, -, -⟩ :=
    C14_setGridSize_removes_empty_rows_first 10 Sample.base Sample.gridB 1
      ⟨by decide, by decide⟩ (by decide) (by decide) (by decide)
  exact ⟨⟨by decide, by decide⟩, by decide, by decide, g2, hrun, hrows.trans (by decide)⟩

end CameraAreaWidget

/-! ## `CameraAreaWidget::addCamera` -/

namespace LiveFeedWidget

theorem setStream_camera (env : Env) (w : LiveFeedWidget) (stream : Option Nat) :
    (setStream env w stream).m_camera = w.m_camera := by
  unfold setStream
  split
  · rfl
  · cases stream with
    | none =>
      simp only [clearStatusMessage, setStatusMessage, isPaused]
      split <;> split <;> rfl
    | some p =>
      simp only [clearStatusMessage, setStatusMessage, streamSizeChanged, resize, call]
      split <;> split <;> split <;> (try split) <;> rfl

theorem setCamera_camera (env : Env) (w : LiveFeedWidget) (camera : DVRCamera) :
    (setCamera env w camera).m_camera = camera := by
  unfold setCamera
  split
  · rename_i h; exact h.symm
  · simp only []
    split
    · rfl
    · rw [setStream_camera]
      rfl

end LiveFeedWidget

namespace CameraAreaWidget

theorem addCameraInRow_spec (env : Env) (camera : DVRCamera) (row : List LiveFeedWidget) :
    (rowFull row ∧ addCameraInRow env camera row = none)
    ∨ ∃ pre w suf, row = pre ++ w :: suf ∧ rowFull pre ∧ w.m_camera.isValid = false
        ∧ addCameraInRow env camera row
            = some (pre ++ LiveFeedWidget.setCamera env w camera :: suf) := by
  induction row with
  | nil => exact Or.inl ⟨(fun _ h => (List.not_mem_nil _ h).elim), rfl⟩
  | cons w rest ih =>
    by_cases hv : w.m_camera.isValid = true
    · rcases ih with ⟨hfull, hnone⟩ | ⟨pre, w2, suf, hrow, hpre, hw2, hres⟩
      · left
        refine ⟨?_, by simp [addCameraInRow, hv, hnone]⟩
        intro x hx
        rcases List.mem_cons.mp hx with rfl | hx
        · exact hv
        · exact hfull x hx
      · right
        refine ⟨w :: pre, w2, suf, by rw [hrow]; rfl, ?_, hw2, by simp [addCameraInRow, hv, hres]⟩
        intro x hx
        rcases List.mem_cons.mp hx with rfl | hx
        · exact hv
        · exact hpre x hx
    · right
      have hv2 : w.m_camera.isValid = false := by simpa using hv
      exact ⟨[], w, rest, rfl, (fun _ h => (List.not_mem_nil _ h).elim), hv2, by simp [addCameraInRow, hv2]⟩

theorem addCameraInRows_spec (env : Env) (camera : DVRCamera)
    (rows : List (List LiveFeedWidget)) :
    ((∀ row ∈ rows, rowFull row) ∧ addCameraInRows env camera rows = none)
    ∨ ∃ above pre w suf below, rows = above ++ (pre ++ w :: suf) :: below
        ∧ (∀ row ∈ above, rowFull row) ∧ rowFull pre ∧ w.m_camera.isValid = false
        ∧ addCameraInRows env camera rows
            = some (above ++ (pre ++ LiveFeedWidget.setCamera env w camera :: suf) :: below) := by
  induction rows with
  | nil => exact Or.inl ⟨(fun _ h => (List.not_mem_nil _ h).elim), rfl⟩
  | cons row rest ih =>
    rcases addCameraInRow_spec env camera row with ⟨hfull, hnone⟩ | ⟨pre, w, suf, hrow, hpre, hw, hres⟩
    · rcases ih with ⟨hall, hnone2⟩ | ⟨above, pre, w, suf, below, hrows, habove, hpre, hw, hres⟩
      · left
        refine ⟨?_, by simp [addCameraInRows, hnone, hnone2]⟩
        intro x hx
        rcases List.mem_cons.mp hx with rfl | hx
        · exact hfull
        · exact hall x hx
      · right
        refine ⟨row :: above, pre, w, suf, below, by rw [hrows]; rfl, ?_, hpre, hw,
          by simp [addCameraInRows, hnone, hres]⟩
        intro x hx
        rcases List.mem_cons.mp hx with rfl | hx
        · exact hfull
        · exact habove x hx
    · right
      exact ⟨[], pre, w, suf, rest, by rw [hrow]; rfl, (fun _ h => (List.not_mem_nil _ h).elim), hpre, hw,
        by simp [addCameraInRows, hres]⟩

/-- C12. `addCamera` sets the camera in the first unused space: when the grid holds a
widget without a camera, the list of rows splits into the rows above (all of whose widgets
have cameras), the widgets to the left in the same row (all with cameras), the first
camera-less widget `w`, and the rest; `addCamera(c)` replaces `w` by `w` after
`setCamera(c)`, whose camera is then `c`, and leaves every other widget, the shape of the
grid and both counters as they were. -/
theorem C12_addCamera_fills_first_unused_space (fuel : Nat) (base : QWidget) (env : Env)
    (g : CameraAreaWidget) (camera : DVRCamera) (hc : camera.isValid = true)
    (hfree : ∃ row ∈ g.m_cameraWidgets, ∃ w ∈ row, w.m_camera.isValid = false) :
    ∃ above pre w suf below,
      g.m_cameraWidgets = above ++ (pre ++ w :: suf) :: below
      ∧ (∀ row ∈ above, ∀ v ∈ row, v.m_camera.isValid = true)
      ∧ (∀ v ∈ pre, v.m_camera.isValid = true)
      ∧ w.m_camera.isValid = false
      ∧ addCamera fuel base env g camera
          = some { g with m_cameraWidgets :=
              above ++ (pre ++ LiveFeedWidget.setCamera env w camera :: suf) :: below }
      ∧ (LiveFeedWidget.setCamera env w camera).m_camera = camera
      ∧ (LiveFeedWidget.setCamera env w camera).m_camera.isValid = true := by
  rcases addCameraInRows_spec env camera g.m_cameraWidgets with
    ⟨hall, -⟩ | ⟨above, pre, w, suf, below, hrows, habove, hpre, hw, hres⟩
  · obtain ⟨row, hrow, w, hw, hfreew⟩ := hfree
    have := hall row hrow w hw
    rw [hfreew] at this
    cases this
  · refine ⟨above, pre, w, suf, below, hrows, habove, hpre, hw, ?_,
      LiveFeedWidget.setCamera_camera env w camera, ?_⟩
    · unfold addCamera
      rw [hres]
    · rw [LiveFeedWidget.setCamera_camera]; exact hc

/-- Witness of C12: a second camera added to the 2x2 sample grid goes to the widget right
of the one showing the first camera. -/
theorem C12_witness :
    (DVRCamera.mk (some 2)).isValid = true
    ∧ (∃ row ∈ Sample.grid.m_cameraWidgets, ∃ w ∈ row, w.m_camera.isValid = false)
    ∧ ∃ above pre w suf below,
        Sample.grid.m_cameraWidgets = above ++ (pre ++ w :: suf) :: below
        ∧ addCamera 10 Sample.base Sample.env Sample.grid { d := some 2 }
            = some { Sample.grid with m_cameraWidgets :=
                above ++ (pre ++ LiveFeedWidget.setCamera Sample.env w { d := some 2 } :: suf)
                  :: below } := by
  have hfree : ∃ row ∈ Sample.grid.m_cameraWidgets, ∃ w ∈ row, w.m_camera.isValid = false :=
    ⟨[Sample.live, Sample.fresh], by decide, Sample.fresh, by decide, by decide⟩
  obtain ⟨above, pre, w, suf, below, hrows, -, -, -, hres, -, -⟩ :=
    C12_addCamera_fills_first_unused_space 10 Sample.base Sample.env Sample.grid
      { d := some 2 } (by decide) hfree
  exact ⟨by decide, hfree, above, pre, w, suf, below, hrows, hres⟩

end CameraAreaWidget

/-! ## `CameraAreaWidget::autoFill` -/

namespace CameraAreaWidget

theorem addCameraInRow_of_full (env : Env) (camera : DVRCamera) (row : List LiveFeedWidget)
    (hfull : rowFull row) : addCameraInRow env camera row = none := by
  induction row with
  | nil => rfl
  | cons w rest ih =>
    have hw : w.m_camera.isValid = true := hfull w (List.mem_cons_self _ _)
    have hrest : rowFull rest := fun x hx => hfull x (List.mem_cons_of_mem _ hx)
    simp [addCameraInRow, hw, ih hrest]

theorem addCameraInRow_decomp (env : Env) (camera : DVRCamera)
    (pre : List LiveFeedWidget) (w : LiveFeedWidget) (suf : List LiveFeedWidget)
    (hpre : rowFull pre) (hw : w.m_camera.isValid = false) :
    addCameraInRow env camera (pre ++ w :: suf)
      = some (pre ++ LiveFeedWidget.setCamera env w camera :: suf) := by
  induction pre with
  | nil => simp [addCameraInRow, hw]
  | cons v rest ih =>
    have hv : v.m_camera.isValid = true := hpre v (List.mem_cons_self _ _)
    have hrest : rowFull rest := fun x hx => hpre x (List.mem_cons_of_mem _ hx)
    simp [addCameraInRow, hv, ih hrest]

theorem addCameraInRows_of_full (env : Env) (camera : DVRCamera)
    (rows : List (List LiveFeedWidget)) (hfull : ∀ row ∈ rows, rowFull row) :
    addCameraInRows env camera rows = none := by
  induction rows with
  | nil => rfl
  | cons row rest ih =>
    have h1 := addCameraInRow_of_full env camera row (hfull row (List.mem_cons_self _ _))
    have h2 := ih (fun x hx => hfull x (List.mem_cons_of_mem _ hx))
    simp [addCameraInRows, h1, h2]

theorem addCameraInRows_decomp (env : Env) (camera : DVRCamera)
    (above : List (List LiveFeedWidget)) (pre : List LiveFeedWidget) (w : LiveFeedWidget)
    (suf : List LiveFeedWidget) (below : List (List LiveFeedWidget))
    (habove : ∀ row ∈ above, rowFull row) (hpre : rowFull pre)
    (hw : w.m_camera.isValid = false) :
    addCameraInRows env camera (above ++ (pre ++ w :: suf) :: below)
      = some (above ++ (pre ++ LiveFeedWidget.setCamera env w camera :: suf) :: below) := by
  induction above with
  | nil => simp [addCameraInRows, addCameraInRow_decomp env camera pre w suf hpre hw]
  | cons row rest ih =>
    have h1 := addCameraInRow_of_full env camera row (habove row (List.mem_cons_self _ _))
    have h2 := ih (fun x hx => habove x (List.mem_cons_of_mem _ hx))
    simp [addCameraInRows, h1, h2]

theorem set_at_length {α : Type} (a : List α) (x y : α) (b : List α) :
    (a ++ x :: b).set a.length y = a ++ y :: b := by
  induction a with
  | nil => rfl
  | cons h t ih => simp [List.set, ih]

theorem getElem?_at_length {α : Type} (a : List α) (x : α) (b : List α) :
    (a ++ x :: b)[a.length]? = some x := by
  rw [List.getElem?_append_right (le_refl _)]
  simp

theorem widgetAt_decomp (above : List (List LiveFeedWidget)) (pre : List LiveFeedWidget)
    (w : LiveFeedWidget) (suf : List LiveFeedWidget) (below : List (List LiveFeedWidget)) :
    widgetAt (above ++ (pre ++ w :: suf) :: below) (above.length : Int) (pre.length : Int)
      = some w := by
  unfold widgetAt
  rw [atInt_natCast, getElem?_at_length]
  simp only []
  rw [atInt_natCast, getElem?_at_length]

theorem setCameraAt_decomp (env : Env) (camera : DVRCamera) (g : CameraAreaWidget)
    (above : List (List LiveFeedWidget)) (pre : List LiveFeedWidget)
    (w : LiveFeedWidget) (suf : List LiveFeedWidget) (below : List (List LiveFeedWidget))
    (hrows : g.m_cameraWidgets = above ++ (pre ++ w :: suf) :: below) :
    setCameraAt env g (above.length : Int) (pre.length : Int) camera
      = some { g with m_cameraWidgets :=
          above ++ (pre ++ LiveFeedWidget.setCamera env w camera :: suf) :: below } := by
  unfold setCameraAt
  rw [hrows, atInt_natCast, getElem?_at_length]
  simp only []
  rw [atInt_natCast, getElem?_at_length]
  simp only [Int.toNat_ofNat]
  rw [set_at_length, set_at_length]

theorem placeCamera_scan (env : Env) (camera : DVRCamera) (C : Nat) :
    ∀ (fuel : Nat) (above : List (List LiveFeedWidget)) (pre suf : List LiveFeedWidget)
      (below : List (List LiveFeedWidget)) (g : CameraAreaWidget) (avail : Int),
      g.m_cameraWidgets = above ++ (pre ++ suf) :: below →
      g.m_rowCount = ((above.length + 1 + below.length : Nat) : Int) →
      g.m_columnCount = (C : Int) →
      (pre ++ suf).length = C →
      (∀ row ∈ below, row.length = C) →
      (∀ row ∈ above, rowFull row) →
      rowFull pre →
      (∃ w, w.m_camera.isValid = false ∧ (w ∈ suf ∨ ∃ row ∈ below, w ∈ row)) →
      suf.length + 1 + below.length * (C + 1) < fuel →
      ∃ above2 pre2 w suf2 below2,
        g.m_cameraWidgets = above2 ++ (pre2 ++ w :: suf2) :: below2
        ∧ w.m_camera.isValid = false
        ∧ (∀ row ∈ above2, rowFull row)
        ∧ rowFull pre2
        ∧ placeCamera env camera fuel
            { g := g, pRow := (above.length : Int), pCol := (pre.length : Int),
              available := avail }
          = some (if avail - 1 = 0 then
              Flow.returned { g with m_cameraWidgets :=
                above2 ++ (pre2 ++ LiveFeedWidget.setCamera env w camera :: suf2) :: below2 }
            else
              Flow.nextCamera
                { g := { g with m_cameraWidgets :=
                    above2 ++ (pre2 ++ LiveFeedWidget.setCamera env w camera :: suf2) :: below2 },
                  pRow := (above2.length : Int), pCol := (pre2.length : Int) + 1,
                  available := avail - 1 }) := by
  intro fuel
  induction fuel with
  | zero => intro above pre suf below g avail _ _ _ _ _ _ _ _ hfuel; omega
  | succ f ih =>
    intro above pre suf below g avail hrows hR hC hlen hbelow habove hpre hfree hfuel
    have hrowlt : (above.length : Int) < g.m_rowCount := by rw [hR]; push_cast; omega
    unfold placeCamera
    simp only [hrowlt, if_true]
    cases suf with
    | nil =>
      have hpl : pre.length = C := by simpa using hlen
      have hnot : ¬ ((pre.length : Int) < g.m_columnCount) := by rw [hC, hpl]; omega
      simp only [hnot, if_false]
      cases below with
      | nil =>
        obtain ⟨w, -, hw | ⟨row, hrow, -⟩⟩ := hfree
        · cases hw
        · cases hrow
      | cons row below2 =>
        have hfree2 : ∃ w, w.m_camera.isValid = false ∧ (w ∈ row ∨ ∃ r ∈ below2, w ∈ r) := by
          obtain ⟨w, hw, hin | ⟨r, hr, hin⟩⟩ := hfree
          · cases hin
          · rcases List.mem_cons.mp hr with rfl | hr
            · exact ⟨w, hw, Or.inl hin⟩
            · exact ⟨w, hw, Or.inr ⟨r, hr, hin⟩⟩
        have hrowlen : row.length = C := hbelow row (List.mem_cons_self _ _)
        have key := ih (above ++ [pre]) [] row below2 g avail
          (by rw [hrows]; simp)
          (by rw [hR]; simp only [List.length_append, List.length_cons, List.length_nil]
              push_cast; omega)
          hC (by simpa using hrowlen)
          (fun r hr => hbelow r (List.mem_cons_of_mem _ hr))
          (by
            intro r hr
            rcases List.mem_append.mp hr with hr | hr
            · exact habove r hr
            · rw [List.mem_singleton.mp hr]; exact hpre)
          (fun _ h => (List.not_mem_nil _ h).elim)
          hfree2
          (by simp only [List.length_cons, List.length_nil] at hfuel; rw [hrowlen]
              have : (below2.length + 1) * (C + 1) = below2.length * (C + 1) + (C + 1) := by ring
              omega)
        have e1 : (((above ++ [pre]).length : Nat) : Int) = (above.length : Int) + 1 := by simp
        have e2 : ((([] : List LiveFeedWidget).length : Nat) : Int) = 0 := by simp
        rw [e1, e2] at key
        exact key
    | cons w suf2 =>
      have hlt : (pre.length : Int) < g.m_columnCount := by
        rw [hC, ← hlen]; simp
      simp only [hlt, if_true]
      have hwa : widgetAt g.m_cameraWidgets (above.length : Int) (pre.length : Int)
          = some w := by
        rw [hrows]; exact widgetAt_decomp above pre w suf2 below
      rw [hwa]
      simp only []
      by_cases hv : w.m_camera.isValid = true
      · simp only [hv, Bool.not_true, Bool.false_eq_true, if_false]
        have hfree2 : ∃ x, x.m_camera.isValid = false ∧ (x ∈ suf2 ∨ ∃ r ∈ below, x ∈ r) := by
          obtain ⟨x, hx, hin | hin⟩ := hfree
          · rcases List.mem_cons.mp hin with rfl | hin
            · rw [hv] at hx; cases hx
            · exact ⟨x, hx, Or.inl hin⟩
          · exact ⟨x, hx, Or.inr hin⟩
        have key := ih above (pre ++ [w]) suf2 below g avail
          (by rw [hrows]; simp)
          hR hC (by rw [← hlen]; simp)
          hbelow habove
          (by
            intro x hx
            rcases List.mem_append.mp hx with hx | hx
            · exact hpre x hx
            · rw [List.mem_singleton.mp hx]; exact hv)
          hfree2
          (by simp only [List.length_cons] at hfuel; omega)
        have e1 : (((pre ++ [w]).length : Nat) : Int) = (pre.length : Int) + 1 := by simp
        rw [e1] at key
        exact key
      · have hv2 : w.m_camera.isValid = false := by simpa using hv
        simp only [hv2, Bool.not_false, if_true]
        rw [setCameraAt_decomp env camera g above pre w suf2 below hrows]
        simp only []
        refine ⟨above, pre, w, suf2, below, hrows, hv2, habove, hpre, ?_⟩
        split <;> rfl

end CameraAreaWidget

namespace CameraAreaWidget

theorem canStream_isValid (streamable : Nat → Bool) (c : DVRCamera)
    (h : c.canStream streamable = true) : c.isValid = true := by
  unfold DVRCamera.canStream at h
  unfold DVRCamera.isValid
  cases hd : c.d with
  | none => rw [hd] at h; cases h
  | some k => rfl

theorem cameraLessCount_replace (above : List (List LiveFeedWidget))
    (pre : List LiveFeedWidget) (w w2 : LiveFeedWidget) (suf : List LiveFeedWidget)
    (below : List (List LiveFeedWidget)) (hw : w.m_camera.isValid = false)
    (hw2 : w2.m_camera.isValid = true) :
    cameraLessCount (above ++ (pre ++ w2 :: suf) :: below) + 1
      = cameraLessCount (above ++ (pre ++ w :: suf) :: below) := by
  unfold cameraLessCount
  simp only [List.flatten_append, List.flatten_cons, List.filter_append, List.length_append,
    List.filter_cons, hw, hw2, Bool.not_true, Bool.not_false, Bool.false_eq_true, if_false,
    if_true, List.length_cons]
  omega

theorem full_of_cameraLessCount_eq_zero (rows : List (List LiveFeedWidget))
    (h : cameraLessCount rows = 0) : ∀ row ∈ rows, rowFull row := by
  intro row hrow w hw
  unfold cameraLessCount at h
  have hnil := List.eq_nil_of_length_eq_zero h
  by_contra hv
  have hmem : w ∈ rows.flatten.filter (fun w => !w.m_camera.isValid) := by
    rw [List.mem_filter]
    exact ⟨List.mem_flatten.mpr ⟨row, hrow, hw⟩, by simpa using hv⟩
  rw [hnil] at hmem
  cases hmem

theorem exists_cameraLess_of_pos (above : List (List LiveFeedWidget))
    (pre suf : List LiveFeedWidget) (below : List (List LiveFeedWidget))
    (habove : ∀ row ∈ above, rowFull row) (hpre : rowFull pre)
    (hpos : 0 < cameraLessCount (above ++ (pre ++ suf) :: below)) :
    ∃ w, w.m_camera.isValid = false ∧ (w ∈ suf ∨ ∃ row ∈ below, w ∈ row) := by
  unfold cameraLessCount at hpos
  obtain ⟨w, hmem⟩ := List.exists_mem_of_length_pos hpos
  rw [List.mem_filter] at hmem
  obtain ⟨hin, hfree⟩ := hmem
  have hfree2 : w.m_camera.isValid = false := by simpa using hfree
  obtain ⟨row, hrow, hw⟩ := List.mem_flatten.mp hin
  rcases List.mem_append.mp hrow with hrow | hrow
  · have := habove row hrow w hw
    rw [hfree2] at this; cases this
  · rcases List.mem_cons.mp hrow with rfl | hrow
    · rcases List.mem_append.mp hw with hw | hw
      · have := hpre w hw
        rw [hfree2] at this; cases this
      · exact ⟨w, hfree2, Or.inl hw⟩
    · exact ⟨w, hfree2, Or.inr ⟨row, hrow, hw⟩⟩

theorem wellFormed_replace (g : CameraAreaWidget) (above : List (List LiveFeedWidget))
    (pre : List LiveFeedWidget) (w w2 : LiveFeedWidget) (suf : List LiveFeedWidget)
    (below : List (List LiveFeedWidget))
    (hrows : g.m_cameraWidgets = above ++ (pre ++ w :: suf) :: below) (hwf : g.WellFormed) :
    WellFormed { g with m_cameraWidgets := above ++ (pre ++ w2 :: suf) :: below } := by
  constructor
  · have := hwf.1
    rw [hrows] at this
    simpa using this
  · intro row hrow
    simp only [] at hrow ⊢
    rcases List.mem_append.mp hrow with hrow | hrow
    · exact hwf.2 row (by rw [hrows]; exact List.mem_append_left _ hrow)
    · rcases List.mem_cons.mp hrow with rfl | hrow
      · have := hwf.2 (pre ++ w :: suf) (by rw [hrows]; simp)
        simpa using this
      · exact hwf.2 row (by rw [hrows]; simp [hrow])

theorem assignInOrder_of_full (env : Env) (cameras : List DVRCamera)
    (rows : List (List LiveFeedWidget)) (hfull : ∀ row ∈ rows, rowFull row) :
    assignInOrder env cameras rows = rows := by
  cases cameras with
  | nil => rfl
  | cons c cs => simp [assignInOrder, addCameraInRows_of_full env c rows hfull]

theorem fillCameras_spec (fuel : Nat) (env : Env) (streamable : Nat → Bool)
    (existing : List DVRCamera) :
    ∀ (cameras : List DVRCamera) (s : FillState),
      FillInv s →
      s.g.m_rowCount.toNat * (s.g.m_columnCount.toNat + 1) < fuel →
      ∃ flow, fillCameras fuel env streamable existing cameras s = some flow
        ∧ flow.grid = { s.g with m_cameraWidgets :=
            (assignInOrder env
              (cameras.filter (fun c => !existing.contains c && c.canStream streamable))
              s.g.m_cameraWidgets) } := by
  intro cameras
  induction cameras with
  | nil =>
    intro s _ _
    exact ⟨Flow.nextCamera s, rfl, rfl⟩
  | cons c cs ih =>
    intro s hinv hfuel
    unfold fillCameras
    by_cases helig : (!existing.contains c && c.canStream streamable) = true
    · simp only [helig, if_true]
      obtain ⟨g, pRow, pCol, avail⟩ := s
      obtain ⟨hwf, ⟨above, pre, suf, below, hrows, hpr, hpc, habove, hpre⟩, havail, hpos⟩ := hinv
      simp only [] at hrows hpr hpc havail hpos hwf hfuel
      subst hpr hpc
      have hcv : c.isValid = true := by
        simp only [Bool.and_eq_true] at helig
        exact canStream_isValid streamable c helig.2
      have hR : g.m_rowCount = ((above.length + 1 + below.length : Nat) : Int) := by
        rw [← hwf.1, hrows]
        simp only [List.length_append, List.length_cons]
        push_cast; ring
      have hC : g.m_columnCount = (((pre ++ suf).length : Nat) : Int) :=
        (hwf.2 (pre ++ suf) (by rw [hrows]; simp)).symm
      have hbelow : ∀ row ∈ below, row.length = (pre ++ suf).length := by
        intro row hrow
        have := hwf.2 row (by rw [hrows]; simp [hrow])
        rw [hC] at this
        exact_mod_cast this
      have hfree := exists_cameraLess_of_pos above pre suf below habove hpre
        (by rw [← hrows]; omega)
      have hcost : suf.length + 1 + below.length * ((pre ++ suf).length + 1) < fuel := by
        rw [hR, hC] at hfuel
        simp only [Int.toNat_ofNat] at hfuel
        have e : (above.length + 1 + below.length) * ((pre ++ suf).length + 1)
            = above.length * ((pre ++ suf).length + 1) + ((pre ++ suf).length + 1)
              + below.length * ((pre ++ suf).length + 1) := by ring
        rw [e] at hfuel
        have : suf.length ≤ (pre ++ suf).length := by simp
        omega
      obtain ⟨above2, pre2, w, suf2, below2, hrows2, hw, habove2, hpre2, hrun⟩ :=
        placeCamera_scan env c (pre ++ suf).length fuel above pre suf below g avail
          hrows hR hC rfl hbelow habove hpre hfree hcost
      rw [hrun]
      have hw2 : (LiveFeedWidget.setCamera env w c).m_camera.isValid = true := by
        rw [LiveFeedWidget.setCamera_camera]; exact hcv
      have hadd : addCameraInRows env c g.m_cameraWidgets
          = some (above2 ++ (pre2 ++ LiveFeedWidget.setCamera env w c :: suf2) :: below2) := by
        rw [hrows2]
        exact addCameraInRows_decomp env c above2 pre2 w suf2 below2 habove2 hpre2 hw
      have hcount := cameraLessCount_replace above2 pre2 w (LiveFeedWidget.setCamera env w c)
        suf2 below2 hw hw2
      rw [← hrows2] at hcount
      have hfilter : (c :: cs).filter (fun c => !existing.contains c && c.canStream streamable)
          = c :: cs.filter (fun c => !existing.contains c && c.canStream streamable) := by
        simp only [List.filter_cons, helig, if_true]
      simp only [hfilter, assignInOrder, hadd]
      by_cases hzero : avail - 1 = 0
      · simp only [hzero, if_true]
        refine ⟨_, rfl, ?_⟩
        have hfull := full_of_cameraLessCount_eq_zero
          (above2 ++ (pre2 ++ LiveFeedWidget.setCamera env w c :: suf2) :: below2) (by omega)
        rw [assignInOrder_of_full env _ _ hfull]
        rfl
      · simp only [hzero, if_false]
        have hinv2 : FillInv
            { g := { g with m_cameraWidgets :=
                above2 ++ (pre2 ++ LiveFeedWidget.setCamera env w c :: suf2) :: below2 },
              pRow := (above2.length : Int), pCol := (pre2.length : Int) + 1,
              available := avail - 1 } := by
          refine ⟨wellFormed_replace g above2 pre2 w _ suf2 below2 hrows2 hwf,
            ⟨above2, pre2 ++ [LiveFeedWidget.setCamera env w c], suf2, below2, by simp, rfl,
              by simp, habove2, ?_⟩, ?_, ?_⟩
          · intro x hx
            rcases List.mem_append.mp hx with hx | hx
            · exact hpre2 x hx
            · rw [List.mem_singleton.mp hx]; exact hw2
          · simp only []; omega
          · simp only []; omega
        obtain ⟨flow, hflow, hgrid⟩ := ih _ hinv2 hfuel
        exact ⟨flow, hflow, hgrid⟩
    · simp only [helig, if_false, Bool.false_eq_true]
      obtain ⟨flow, hflow, hgrid⟩ := ih s hinv hfuel
      refine ⟨flow, hflow, ?_⟩
      have hf : (c :: cs).filter (fun c => !existing.contains c && c.canStream streamable)
          = cs.filter (fun c => !existing.contains c && c.canStream streamable) := by
        simp only [List.filter_cons, helig, Bool.false_eq_true, if_false]
      rw [hgrid, hf]

end CameraAreaWidget

namespace CameraAreaWidget

theorem fillCameras_cons (fuel : Nat) (env : Env) (streamable : Nat → Bool)
    (existing : List DVRCamera) (c : DVRCamera) (cs : List DVRCamera) (s : FillState) :
    fillCameras fuel env streamable existing (c :: cs) s
      = if (!existing.contains c && c.canStream streamable) = true then
          match placeCamera env c fuel s with
          | none => none
          | some (Flow.returned g) => some (Flow.returned g)
          | some (Flow.nextCamera s1) => fillCameras fuel env streamable existing cs s1
        else
          fillCameras fuel env streamable existing cs s := by
  rfl

theorem fillCameras_append (fuel : Nat) (env : Env) (streamable : Nat → Bool)
    (existing : List DVRCamera) (a b : List DVRCamera) :
    ∀ s : FillState, fillCameras fuel env streamable existing (a ++ b) s
      = match fillCameras fuel env streamable existing a s with
        | none => none
        | some (Flow.returned g) => some (Flow.returned g)
        | some (Flow.nextCamera s1) => fillCameras fuel env streamable existing b s1 := by
  induction a with
  | nil => intro s; rfl
  | cons c cs ih =>
    intro s
    simp only [List.cons_append]
    rw [fillCameras_cons, fillCameras_cons]
    split
    · cases hp : placeCamera env c fuel s with
      | none => rfl
      | some flow =>
        cases flow with
        | returned g => rfl
        | nextCamera s1 => simp only []; exact ih s1
    · exact ih s

theorem fillServers_eq_fillCameras (fuel : Nat) (env : Env) (streamable : Nat → Bool)
    (existing : List DVRCamera) (servers : List DVRServerView) :
    ∀ s : FillState, fillServers fuel env streamable existing servers s
      = fillCameras fuel env streamable existing
          ((servers.filter (fun server => server.isOnline)).flatMap
            (fun server => server.cameras)) s := by
  induction servers with
  | nil => intro s; rfl
  | cons server rest ih =>
    intro s
    unfold fillServers
    by_cases ho : server.isOnline = true
    · simp only [ho, Bool.not_true, Bool.false_eq_true, if_false, List.filter_cons, if_true,
        List.flatMap_cons]
      rw [fillCameras_append]
      cases hc : fillCameras fuel env streamable existing server.cameras s with
      | none => rfl
      | some flow =>
        cases flow with
        | returned g => rfl
        | nextCamera s1 => simp only []; exact ih s1
    · have ho2 : server.isOnline = false := by simpa using ho
      simp only [ho2, Bool.not_false, if_true, List.filter_cons, Bool.false_eq_true, if_false]
      exact ih s

theorem countRow_spec (row : List LiveFeedWidget) :
    ∀ (existing : List DVRCamera) (n : Int),
      (countRow row (existing, n)).2
          = n + ((row.filter (fun w => !w.m_camera.isValid)).length : Int)
      ∧ ∀ c, c ∈ (countRow row (existing, n)).1
          ↔ c ∈ existing ∨ c ∈ (row.filter (fun w => w.m_camera.isValid)).map
              (fun w => w.m_camera) := by
  induction row with
  | nil => intro existing n; simp [countRow]
  | cons w rest ih =>
    intro existing n
    unfold countRow
    by_cases hv : w.m_camera.isValid = true
    · simp only [hv, if_true, List.filter_cons, Bool.not_true, Bool.false_eq_true, if_false,
        List.map_cons, List.mem_cons]
      obtain ⟨h1, h2⟩ := ih (existing.insert w.m_camera) n
      refine ⟨h1, fun c => ?_⟩
      rw [h2 c, List.mem_insert_iff]
      tauto
    · have hv2 : w.m_camera.isValid = false := by simpa using hv
      simp only [hv2, Bool.false_eq_true, if_false, List.filter_cons, Bool.not_false, if_true,
        List.length_cons]
      obtain ⟨h1, h2⟩ := ih existing (n + 1)
      refine ⟨?_, h2⟩
      rw [h1]; push_cast; ring

theorem countRows_spec (rows : List (List LiveFeedWidget)) :
    ∀ (existing : List DVRCamera) (n : Int),
      (countRows rows (existing, n)).2 = n + (cameraLessCount rows : Int)
      ∧ ∀ c, c ∈ (countRows rows (existing, n)).1
          ↔ c ∈ existing ∨ c ∈ displayedCameras rows := by
  induction rows with
  | nil => intro existing n; simp [countRows, cameraLessCount, displayedCameras]
  | cons row rest ih =>
    intro existing n
    unfold countRows
    obtain ⟨h1, h2⟩ := countRow_spec row existing n
    obtain ⟨h3, h4⟩ := ih (countRow row (existing, n)).1 (countRow row (existing, n)).2
    refine ⟨?_, fun c => ?_⟩
    · rw [h3, h1]
      simp only [cameraLessCount, List.flatten_cons, List.filter_append, List.length_append]
      push_cast; ring
    · rw [h4 c, h2 c]
      simp only [displayedCameras, List.flatten_cons, List.filter_append, List.map_append,
        List.mem_append]
      tauto

theorem forall₂_comp {α : Type} {R S T : α → α → Prop}
    (h : ∀ a b c, R a b → S b c → T a c) :
    ∀ (l1 l2 l3 : List α), List.Forall₂ R l1 l2 → List.Forall₂ S l2 l3 → List.Forall₂ T l1 l3 := by
  intro l1 l2 l3 h12
  induction h12 generalizing l3 with
  | nil => intro h23; cases h23; exact List.Forall₂.nil
  | cons hab _ ih =>
    intro h23
    cases h23 with
    | cons hbc hrest => exact List.Forall₂.cons (h _ _ _ hab hbc) (ih _ hrest)

theorem keeps_refl (rows : List (List LiveFeedWidget)) : KeepsWidgetsWithCameras rows rows := by
  unfold KeepsWidgetsWithCameras
  rw [List.forall₂_same]
  intro row _
  rw [List.forall₂_same]
  intro w _ _
  rfl

theorem keeps_replace (above : List (List LiveFeedWidget)) (pre : List LiveFeedWidget)
    (w w2 : LiveFeedWidget) (suf : List LiveFeedWidget) (below : List (List LiveFeedWidget))
    (hw : w.m_camera.isValid = false) :
    KeepsWidgetsWithCameras (above ++ (pre ++ w :: suf) :: below)
      (above ++ (pre ++ w2 :: suf) :: below) := by
  have hrow : ∀ row : List LiveFeedWidget,
      List.Forall₂ (fun (w w2 : LiveFeedWidget) => w.m_camera.isValid = true → w2 = w) row row := by
    intro row
    rw [List.forall₂_same]
    intro x _ _
    rfl
  have hrows : ∀ l : List (List LiveFeedWidget),
      List.Forall₂ (List.Forall₂
        (fun (w w2 : LiveFeedWidget) => w.m_camera.isValid = true → w2 = w)) l l := by
    intro l
    rw [List.forall₂_same]
    intro row _
    exact hrow row
  unfold KeepsWidgetsWithCameras
  refine List.rel_append (hrows above) (List.Forall₂.cons ?_ (hrows below))
  refine List.rel_append (hrow pre) (List.Forall₂.cons ?_ (hrow suf))
  intro hv
  rw [hw] at hv
  cases hv

theorem keeps_trans (a b c : List (List LiveFeedWidget))
    (hab : KeepsWidgetsWithCameras a b) (hbc : KeepsWidgetsWithCameras b c) :
    KeepsWidgetsWithCameras a c := by
  unfold KeepsWidgetsWithCameras at *
  refine forall₂_comp ?_ a b c hab hbc
  intro r1 r2 r3 h12 h23
  refine forall₂_comp ?_ r1 r2 r3 h12 h23
  intro w1 w2 w3 h1 h2 hv
  have e1 : w2 = w1 := h1 hv
  have e2 : w3 = w2 := h2 (by rw [e1]; exact hv)
  rw [e2, e1]

theorem assignInOrder_keeps (env : Env) (cameras : List DVRCamera) :
    ∀ rows : List (List LiveFeedWidget),
      KeepsWidgetsWithCameras rows (assignInOrder env cameras rows) := by
  induction cameras with
  | nil => intro rows; exact keeps_refl rows
  | cons c cs ih =>
    intro rows
    unfold assignInOrder
    rcases addCameraInRows_spec env c rows with
      ⟨-, hnone⟩ | ⟨above, pre, w, suf, below, hrows, -, -, hw, hres⟩
    · rw [hnone]; exact keeps_refl rows
    · rw [hres]
      simp only []
      refine keeps_trans _ _ _ ?_ (ih _)
      rw [hrows]
      exact keeps_replace above pre w _ suf below hw

theorem cameraLessCount_of_full (rows : List (List LiveFeedWidget))
    (hfull : ∀ row ∈ rows, rowFull row) : cameraLessCount rows = 0 := by
  unfold cameraLessCount
  rw [List.length_eq_zero, List.filter_eq_nil_iff]
  intro w hw
  obtain ⟨row, hrow, hin⟩ := List.mem_flatten.mp hw
  simp [hfull row hrow w hin]

theorem assignInOrder_count (env : Env) (cameras : List DVRCamera)
    (hvalid : ∀ c ∈ cameras, c.isValid = true) :
    ∀ rows : List (List LiveFeedWidget),
      cameraLessCount (assignInOrder env cameras rows)
          + min cameras.length (cameraLessCount rows)
        = cameraLessCount rows := by
  induction cameras with
  | nil => intro rows; simp [assignInOrder]
  | cons c cs ih =>
    intro rows
    unfold assignInOrder
    rcases addCameraInRows_spec env c rows with
      ⟨hfull, hnone⟩ | ⟨above, pre, w, suf, below, hrows, -, -, hw, hres⟩
    · rw [hnone]
      simp only []
      rw [cameraLessCount_of_full rows hfull]
      simp
    · rw [hres]
      simp only []
      have hw2 : (LiveFeedWidget.setCamera env w c).m_camera.isValid = true := by
        rw [LiveFeedWidget.setCamera_camera]; exact hvalid c (List.mem_cons_self _ _)
      have hstep := cameraLessCount_replace above pre w (LiveFeedWidget.setCamera env w c)
        suf below hw hw2
      have hrec := ih (fun x hx => hvalid x (List.mem_cons_of_mem _ hx))
        (above ++ (pre ++ LiveFeedWidget.setCamera env w c :: suf) :: below)
      rw [hrows]
      simp only [List.length_cons]
      omega

theorem eligibleCameras_valid (streamable : Nat → Bool) (servers : List DVRServerView)
    (rows : List (List LiveFeedWidget)) :
    ∀ c ∈ eligibleCameras streamable servers rows, c.isValid = true := by
  intro c hc
  unfold eligibleCameras at hc
  rw [List.mem_filter] at hc
  have h := hc.2
  simp only [Bool.and_eq_true] at h
  exact canStream_isValid streamable c h.2

end CameraAreaWidget

namespace CameraAreaWidget

theorem autoFill_spec (fuel : Nat) (env : Env) (streamable : Nat → Bool)
    (servers : List DVRServerView) (g : CameraAreaWidget) (hwf : g.WellFormed)
    (hfuel : g.m_rowCount.toNat * (g.m_columnCount.toNat + 1) < fuel) :
    autoFill fuel env streamable servers g
      = some { g with m_cameraWidgets :=
          (assignInOrder env (eligibleCameras streamable servers g.m_cameraWidgets)
            g.m_cameraWidgets) } := by
  obtain ⟨hcount, hmem⟩ := countRows_spec g.m_cameraWidgets [] 0
  unfold autoFill
  simp only []
  by_cases hzero : (countRows g.m_cameraWidgets ([], 0)).2 = 0
  · rw [if_pos hzero]
    have hc0 : cameraLessCount g.m_cameraWidgets = 0 := by omega
    rw [assignInOrder_of_full env _ _ (full_of_cameraLessCount_eq_zero _ hc0)]
  · rw [if_neg hzero]
    have hpos : 0 < cameraLessCount g.m_cameraWidgets := by omega
    have hfilter : ∀ cams : List DVRCamera,
        cams.filter (fun c => !(countRows g.m_cameraWidgets ([], 0)).1.contains c
            && c.canStream streamable)
          = cams.filter (fun c => !(displayedCameras g.m_cameraWidgets).contains c
            && c.canStream streamable) := by
      intro cams
      apply List.filter_congr
      intro c _
      have h := hmem c
      simp only [List.not_mem_nil, false_or] at h
      have hb : (countRows g.m_cameraWidgets ([], 0)).1.contains c
          = (displayedCameras g.m_cameraWidgets).contains c := by
        rw [Bool.eq_iff_iff]
        simp only [List.contains_iff_exists_mem_beq, beq_iff_eq]
        constructor
        · rintro ⟨a, ha, rfl⟩
          exact ⟨c, h.mp ha, rfl⟩
        · rintro ⟨a, ha, rfl⟩
          exact ⟨c, h.mpr ha, rfl⟩
      rw [hb]
    have hinv : FillInv (FillState.mk g 0 0 (countRows g.m_cameraWidgets ([], 0)).2) := by
      refine ⟨hwf, ?_, by simp only []; omega, by simp only []; omega⟩
      cases hrows : g.m_cameraWidgets with
      | nil => rw [hrows] at hpos; simp [cameraLessCount] at hpos
      | cons row rest =>
        exact ⟨[], [], row, rest, rfl, rfl, rfl, (fun _ h => (List.not_mem_nil _ h).elim),
          (fun _ h => (List.not_mem_nil _ h).elim)⟩
    obtain ⟨flow, hflow, hgrid⟩ :=
      fillCameras_spec fuel env streamable (countRows g.m_cameraWidgets ([], 0)).1
        ((servers.filter (fun server => server.isOnline)).flatMap (fun server => server.cameras))
        _ hinv hfuel
    rw [fillServers_eq_fillCameras, hflow]
    rw [hfilter] at hgrid
    simp only [] at hgrid
    cases flow with
    | returned g1 =>
      simp only [Flow.grid] at hgrid
      simp only []
      rw [hgrid]
      rfl
    | nextCamera s1 =>
      simp only [Flow.grid] at hgrid
      simp only []
      rw [hgrid]
      rfl

/-- C16. `autoFill` only fills empty cells and fills them completely. On a well-formed grid
it returns (given enough fuel for its search loops) the grid in which the eligible cameras
(cameras of online servers, in server order then camera order, that can stream and were not
displayed before the call) have been set, in that order, each on the first widget without a
camera in row-major order. The grid keeps its counters and its shape, every widget that
already had a camera is unchanged, and the number of widgets without a camera drops by the
smaller of the number of eligible cameras and the number of camera-less widgets: it stops
only when no camera-less widget remains or every eligible camera has been assigned. -/
theorem C16_autoFill_fills_camera_less_widgets_in_order (fuel : Nat) (env : Env)
    (streamable : Nat → Bool) (servers : List DVRServerView) (g : CameraAreaWidget)
    (hwf : g.WellFormed)
    (hfuel : g.m_rowCount.toNat * (g.m_columnCount.toNat + 1) < fuel) :
    ∃ g2 : CameraAreaWidget, autoFill fuel env streamable servers g = some g2
      ∧ g2.m_rowCount = g.m_rowCount
      ∧ g2.m_columnCount = g.m_columnCount
      ∧ KeepsWidgetsWithCameras g.m_cameraWidgets g2.m_cameraWidgets
      ∧ g2.m_cameraWidgets
          = assignInOrder env (eligibleCameras streamable servers g.m_cameraWidgets)
              g.m_cameraWidgets
      ∧ cameraLessCount g2.m_cameraWidgets
            + min (eligibleCameras streamable servers g.m_cameraWidgets).length
                (cameraLessCount g.m_cameraWidgets)
          = cameraLessCount g.m_cameraWidgets :=
  ⟨_, autoFill_spec fuel env streamable servers g hwf hfuel, rfl, rfl,
    assignInOrder_keeps env _ _, rfl,
    assignInOrder_count env _ (eligibleCameras_valid streamable servers g.m_cameraWidgets) _⟩

/-- Witness of C16: the 2x2 sample grid showing camera 1, with a server offering cameras 1,
2 and 3 (3 cannot stream) and an offline server: camera 2 goes to the widget right of
camera 1 and the bottom row stays free. -/
theorem C16_witness :
    Sample.grid.WellFormed
    ∧ ∃ g2 : CameraAreaWidget,
        autoFill 7 Sample.env Sample.streamable Sample.servers Sample.grid = some g2
        ∧ g2.m_cameraWidgets.map (fun row => row.map (fun w => w.m_camera.d))
            = [[some 1, some 2], [none, none]] := by
  obtain ⟨g2, hrun, -, -, -, hrows, -⟩ :=
    C16_autoFill_fills_camera_less_widgets_in_order 7 Sample.env Sample.streamable
      Sample.servers Sample.grid ⟨by decide, by decide⟩ (by decide)
  refine ⟨⟨by decide, by decide⟩, g2, hrun, ?_⟩
  rw [hrows]
  decide

end CameraAreaWidget

end Bluecherry
